import Mathlib

namespace PyModel

/-- First-occurrence deduplication with an accumulator of already-seen
elements; `pyDedupAux seen l` drops the elements of `l` that occur in
`seen` or earlier in `l`. -/
def pyDedupAux [DecidableEq α] (seen : List α) : List α → List α
  | [] => []
  | x :: xs => if x ∈ seen then pyDedupAux seen xs else x :: pyDedupAux (x :: seen) xs

/-- Model of Python `list(set(l))`: the distinct elements of `l`, realised
in first-occurrence order (CPython's actual order is unspecified). -/
def pyDedup [DecidableEq α] (l : List α) : List α := pyDedupAux [] l

/-- Python `max(non-empty-iterable, key=f)` starting from candidate `b`:
iterates, replacing the candidate only when its key strictly increases, so
the earliest element wins ties. -/
def pyMaxGo (f : α → Nat) : α → List α → α
  | b, [] => b
  | b, v :: vs => pyMaxGo f (if f b < f v then v else b) vs

/-- Python `max(iterable, key=f)` (`none` on an empty iterable). -/
def pyMax (f : α → Nat) : List α → Option α
  | [] => none
  | v :: vs => some (pyMaxGo f v vs)

/-- Ascending distinct values of an integer list: models CPython's
iteration order of a `set` of small non-negative ints. -/
def ascendingVals (xs : List Int) : List Int :=
  List.insertionSort (fun a b => a ≤ b) (pyDedup xs)

/-- Model of `max(set(xs), key=xs.count)` for a list of small non-negative
ints: the smallest value attaining the maximal multiplicity (CPython
iterates such a set ascending and `max` keeps the earliest tie). -/
def pyMode (xs : List Int) : Option Int :=
  pyMax (fun v => xs.count v) (ascendingVals xs)

/-- Python dict assignment `d[k] = v` on an insertion-ordered association
list: overwrites in place when the key exists, otherwise appends. -/
def dictSet [DecidableEq κ] (d : List (κ × α)) (k : κ) (v : α) : List (κ × α) :=
  if d.any (fun p => p.1 = k) then
    d.map (fun p => if p.1 = k then (k, v) else p)
  else d ++ [(k, v)]

/-- Python `del d[k]` (all bindings of `k`; keys are unique in a dict). -/
def dictRemove [DecidableEq κ] (d : List (κ × α)) (k : κ) : List (κ × α) :=
  d.filter (fun p => p.1 ≠ k)

/-- Python `d.get(k, default)`. -/
def dictGetD [DecidableEq κ] (d : List (κ × α)) (k : κ) (v0 : α) : α :=
  match d.find? (fun p => p.1 = k) with
  | some p => p.2
  | none => v0

/-- Python `k in d`. -/
def dictHas [DecidableEq κ] (d : List (κ × α)) (k : κ) : Bool :=
  d.any (fun p => p.1 = k)

end PyModel

namespace GroupPrefs

open PyModel

/-- A learned price range stored under `learned_from_chat["price_range"]`
(either bound may be `None` since it is copied from optional Foursquare
parameters) or derived from a budget tier. -/
structure PriceRange where
  pmin : Option Int
  pmax : Option Int
deriving DecidableEq

/-- One member's entry in `GroupPreferences.member_contributions`
(`src/app/models/group_preferences.py`).  The dict keys the aggregator
reads are modelled as fields; absent list-valued keys and present empty
lists are observationally identical to `_aggregate_member_preferences`, so
both are the empty list.  `spice_tolerance` keeps its present/absent
distinction and `budget_preference` defaults to `""` as in
`member_prefs.get("budget_preference", "")`. -/
structure MemberPrefs where
  preferred_cuisines : List String
  dietary_restrictions : List String
  spice_tolerance : Option String
  dining_style : List String
  budget_preference : String
  learned_queries : List String
  learned_categories : List String
  learned_price_range : Option PriceRange
deriving DecidableEq

/-- The fresh contribution `{"learned_from_chat": {}}` created by
`update_from_llm_message` for a sender with no prior entry. -/
def freshMember : MemberPrefs :=
  { preferred_cuisines := []
    dietary_restrictions := []
    spice_tolerance := none
    dining_style := []
    budget_preference := ""
    learned_queries := []
    learned_categories := []
    learned_price_range := none }

/-- Query terms one member contributes to `all_queries`, in the source's
collection order: preferred cuisines, dietary restrictions, non-medium
spice tolerance, dining styles, then chat-learned queries. -/
def memberQueries (m : MemberPrefs) : List String :=
  m.preferred_cuisines ++ m.dietary_restrictions ++
    (match m.spice_tolerance with
     | some s => if s = "medium" then [] else [s]
     | none => []) ++
    m.dining_style ++ m.learned_queries

/-- Category ids one member contributes (`learned_from_chat["categories"]`). -/
def memberCategories (m : MemberPrefs) : List String :=
  m.learned_categories

/-- Price ranges one member contributes: the bucket derived from the budget
tier (budget→(1,2), moderate→(2,3), upscale→(3,4)), then any learned range. -/
def memberPriceRanges (m : MemberPrefs) : List PriceRange :=
  (if m.budget_preference = "budget" then [⟨some 1, some 2⟩]
   else if m.budget_preference = "moderate" then [⟨some 2, some 3⟩]
   else if m.budget_preference = "upscale" then [⟨some 3, some 4⟩]
   else []) ++
  (match m.learned_price_range with
   | some p => [p]
   | none => [])

/-- The insertion-ordered `member_contributions` dict. -/
abbrev Contribs := List (String × MemberPrefs)

def allQueries (c : Contribs) : List String :=
  c.flatMap (fun p => memberQueries p.2)

def allCategories (c : Contribs) : List String :=
  c.flatMap (fun p => memberCategories p.2)

def allPriceRanges (c : Contribs) : List PriceRange :=
  c.flatMap (fun p => memberPriceRanges p.2)

/-- `[p.get("min") for p in price_ranges if p.get("min")]`: Python
truthiness drops both absent and zero bounds. -/
def truthyMins (rs : List PriceRange) : List Int :=
  rs.filterMap (fun p =>
    match p.pmin with
    | some v => if v = 0 then none else some v
    | none => none)

def truthyMaxs (rs : List PriceRange) : List Int :=
  rs.filterMap (fun p =>
    match p.pmax with
    | some v => if v = 0 then none else some v
    | none => none)

/-- Python truthiness of an optional int (`None` and `0` are falsy). -/
def intTruthy : Option Int → Bool
  | some v => v != 0
  | none => false

/-- Python truthiness of an optional string (`None` and `""` are falsy). -/
def strTruthy : Option String → Bool
  | some s => s != ""
  | none => false

/-- The `GroupPreferences` Beanie document
(`src/app/models/group_preferences.py`).  `price_preferences` is a dict
holding at most the keys `min_price`/`max_price`, modelled as two options;
`timing_preferences` is only ever read through `get("open_now")`, modelled
as `timing_open_now`; the two frequency dicts are read only by key, so
they are modelled as count functions. -/
structure GroupPreferences where
  group_id : String
  extracted_queries : List String
  extracted_categories : List String
  min_price : Option Int
  max_price : Option Int
  location_preferences : List String
  timing_open_now : Bool
  sort_preferences : List String
  member_contributions : Contribs
  member_count : Nat
  query_frequency : String → Nat
  category_frequency : String → Nat
  is_llm_updated : Bool
  last_updated_by : String
  llm_confidence_score : Option ℚ
  total_group_interactions : Nat
  foursquare_param_count : Nat

/-- `_aggregate_member_preferences`: recomputes every aggregated field
from `member_contributions`.  `list(set(...))` is realised as `pyDedup`
and the `max(set(...), key=count)` consensus as `pyMode` (see the module
comment). -/
def aggregateMemberPreferences (g : GroupPreferences) : GroupPreferences :=
  let qs := allQueries g.member_contributions
  let cats := allCategories g.member_contributions
  let prs := allPriceRanges g.member_contributions
  let minC := pyMode (truthyMins prs)
  let maxC := pyMode (truthyMaxs prs)
  let uq := pyDedup qs
  let uc := pyDedup cats
  { g with
    extracted_queries := uq
    extracted_categories := uc
    min_price := minC
    max_price := maxC
    query_frequency := fun q => qs.count q
    category_frequency := fun cat => cats.count cat
    foursquare_param_count :=
      (if uq ≠ [] then 1 else 0) + (if uc ≠ [] then 1 else 0) +
        (if intTruthy minC then 1 else 0) + (if intTruthy maxC then 1 else 0) }

/-- `add_member_preferences`: upsert the member's contribution, refresh the
count, re-aggregate, stamp the metadata. -/
def addMemberPreferences (g : GroupPreferences) (uid : String)
    (prefs : MemberPrefs) : GroupPreferences :=
  let c := dictSet g.member_contributions uid prefs
  let g1 := aggregateMemberPreferences
    { g with member_contributions := c, member_count := c.length }
  { g1 with last_updated_by := "member_join_" ++ uid }

/-- `remove_member_preferences`: delete the member (when present), refresh
the count, re-aggregate, stamp the metadata. -/
def removeMemberPreferences (g : GroupPreferences) (uid : String) :
    GroupPreferences :=
  if dictHas g.member_contributions uid then
    let c := dictRemove g.member_contributions uid
    let g1 := aggregateMemberPreferences
      { g with member_contributions := c, member_count := c.length }
    { g1 with last_updated_by := "member_leave_" ++ uid }
  else g

/-- The Foursquare parameter bag (`foursquare_params` dict).  Absent keys
are `none`; `fsq_category_ids` uses `[]` for both the absent and the empty
list, matching Python truthiness. -/
structure FoursquareParams where
  query : Option String
  fsq_category_ids : List String
  min_price : Option Int
  max_price : Option Int
  open_now : Option Bool
  near : Option String
  sort : Option String
deriving DecidableEq

def emptyParams : FoursquareParams :=
  { query := none, fsq_category_ids := [], min_price := none,
    max_price := none, open_now := none, near := none, sort := none }

/-- The slice of an LLM `analysis_result` dict that
`update_from_llm_message` reads. -/
structure AnalysisResult where
  api_ready : Bool
  foursquare_parameters : FoursquareParams
  overall_relevance : ℚ

/-- Python `if x not in l: l.append(x)`. -/
def appendIfAbsent (l : List String) (x : String) : List String :=
  if x ∈ l then l else l ++ [x]

/-- `update_from_llm_message`: on an `api_ready` result, merge the
extracted parameters into the sending member's `learned_from_chat`
record — creating the member's entry if absent, WITHOUT refreshing
`member_count` — then re-aggregate and stamp LLM metadata. -/
def updateFromLlmMessage (g : GroupPreferences) (uid : String)
    (ar : AnalysisResult) : GroupPreferences :=
  if !ar.api_ready then g
  else
    let fp := ar.foursquare_parameters
    let member := dictGetD g.member_contributions uid freshMember
    let member1 :=
      if strTruthy fp.query then
        { member with learned_queries :=
            appendIfAbsent member.learned_queries (fp.query.getD "") }
      else member
    let member2 :=
      if fp.fsq_category_ids ≠ [] then
        { member1 with learned_categories :=
            fp.fsq_category_ids.foldl appendIfAbsent member1.learned_categories }
      else member1
    let member3 :=
      if intTruthy fp.min_price || intTruthy fp.max_price then
        { member2 with learned_price_range := some ⟨fp.min_price, fp.max_price⟩ }
      else member2
    let c := dictSet g.member_contributions uid member3
    let g1 := aggregateMemberPreferences { g with member_contributions := c }
    { g1 with
      is_llm_updated := true
      llm_confidence_score := some ar.overall_relevance
      total_group_interactions := g.total_group_interactions + 1
      last_updated_by := "llm_message_" ++ uid }

/-- `get_aggregated_foursquare_params`: project the profile onto a flat
search-parameter bag.  The joined `fsq_category_ids` string is modelled as
the list of the ids joined (`extracted_categories[:5]`). -/
def getAggregatedFoursquareParams (g : GroupPreferences) : FoursquareParams :=
  { query := g.extracted_queries.getLast?
    fsq_category_ids :=
      if g.extracted_categories ≠ [] then g.extracted_categories.take 5 else []
    min_price := g.min_price
    max_price := g.max_price
    near := g.location_preferences.getLast?
    open_now := if g.timing_open_now then some true else none
    sort := g.sort_preferences.getLast? }

/-- The most recently added query term of a profile: the last element of
the member-contribution queries in collection order. -/
def mostRecentQueryTerm (g : GroupPreferences) : Option String :=
  (allQueries g.member_contributions).getLast?

/-- Equality of the aggregated fields of two profiles, with the two
set-valued fields (whose stored order realises an unspecified Python set
order) compared as sets. -/
def aggEquiv (g₁ g₂ : GroupPreferences) : Prop :=
  g₁.extracted_queries.toFinset = g₂.extracted_queries.toFinset ∧
  g₁.extracted_categories.toFinset = g₂.extracted_categories.toFinset ∧
  g₁.min_price = g₂.min_price ∧
  g₁.max_price = g₂.max_price ∧
  g₁.query_frequency = g₂.query_frequency ∧
  g₁.category_frequency = g₂.category_frequency ∧
  g₁.foursquare_param_count = g₂.foursquare_param_count

/-- The member-contribution dict has pairwise-distinct keys (always true
of a Python dict). -/
abbrev keysNodup (c : Contribs) : Prop :=
  (c.map Prod.fst).Nodup

open PyModel

/-- An all-empty profile (the state `GroupPreferences(group_id=...)` is
constructed in). -/
def baseGroup : GroupPreferences :=
  { group_id := "g"
    extracted_queries := []
    extracted_categories := []
    min_price := none
    max_price := none
    location_preferences := []
    timing_open_now := false
    sort_preferences := []
    member_contributions := []
    member_count := 0
    query_frequency := fun _ => 0
    category_frequency := fun _ => 0
    is_llm_updated := false
    last_updated_by := "group_initialization"
    llm_confidence_score := none
    total_group_interactions := 0
    foursquare_param_count := 0 }

/-- A member whose onboarding answers consist of a budget tier only. -/
def budgetMember (b : String) : MemberPrefs :=
  { freshMember with budget_preference := b }

/-- Three members with budget tiers budget, moderate, moderate. -/
def exampleThreeBudgets : GroupPreferences :=
  { baseGroup with
    member_contributions :=
      [("m1", budgetMember "budget"), ("m2", budgetMember "moderate"),
       ("m3", budgetMember "moderate")] }

/-- A member contributing queries "a", "b" (cuisines) then "a" again
(dietary), so the most recently added query term repeats an earlier one. -/
def repeatQueryMember : MemberPrefs :=
  { freshMember with
    preferred_cuisines := ["a", "b"]
    dietary_restrictions := ["a"] }

def repeatQueryGroup : GroupPreferences :=
  { baseGroup with member_contributions := [("u", repeatQueryMember)] }

/-- An `api_ready` analysis result with no extracted parameters. -/
def arReady : AnalysisResult :=
  { api_ready := true
    foursquare_parameters := emptyParams
    overall_relevance := 0 }

end GroupPrefs

namespace Analyzer

open PyModel

/-!
The `langgraph_analyzer` message pipeline
(`src/llm_service/langgraph_analyzer.py`).

Text is modelled as its whitespace token list (`text.split()`); the
source's `\b`-delimited keyword regexes and `term in text_lower` substring
checks coincide with token membership/contiguous token runs for messages
made of simple space-separated words, which is the regime every concrete
input below lives in.  Multi-word vocabulary entries are stored pre-split
(`["fine", "dining"]` for `"fine dining"`); the two brand patterns that
use `\s*` across words (`pizza hut`, `taco bell`) are the only entries
dropped from the token model.
-/

/-- Lowercase a token (Python `str.lower` for ASCII tokens). -/
def lowerStr (s : String) : String := ⟨s.data.map Char.toLower⟩

def natOfDigits (cs : List Char) : Nat :=
  cs.foldl (fun n c => n * 10 + (c.toNat - 48)) 0

/-- Parse a token that is entirely digits. -/
def parseNatWord (w : String) : Option Nat :=
  if w.data ≠ [] ∧ w.data.all Char.isDigit then some (natOfDigits w.data)
  else none

/-- A `\$(\d+)` token. -/
def parseDollarWord (w : String) : Option Nat :=
  match w.data with
  | '$' :: rest =>
    if rest ≠ [] ∧ rest.all Char.isDigit then some (natOfDigits rest) else none
  | _ => none

/-- A plain `\b(\d{2,4})\b` token. -/
def parsePlainNumber (w : String) : Option Nat :=
  if w.data.all Char.isDigit ∧ 2 ≤ w.data.length ∧ w.data.length ≤ 4 then
    parseNatWord w
  else none

def startsWithSeq : List String → List String → Bool
  | [], _ => true
  | _ :: _, [] => false
  | a :: as, b :: bs => (a == b) && startsWithSeq as bs

/-- The token sequence `pat` occurs contiguously in `ws`. -/
def hasSeq (pat : List String) : List String → Bool
  | [] => startsWithSeq pat []
  | w :: ws => startsWithSeq pat (w :: ws) || hasSeq pat ws

/-- The tokens following the first contiguous occurrence of `pat`. -/
def afterSeq (pat : List String) : List String → Option (List String)
  | [] => none
  | w :: ws =>
    if startsWithSeq pat (w :: ws) then some ((w :: ws).drop pat.length)
    else afterSeq pat ws

/-- Python `term in text_lower` for a (pre-split) vocabulary term. -/
def containsTerm (words : List String) (pat : List String) : Bool :=
  hasSeq pat words

/-- `query_patterns[0]`: food, cuisine and meal keywords (`tacos?`
contributes both spellings). -/
def queryPattern1 : List String :=
  ["pizza", "burger", "sushi", "taco", "tacos", "pasta", "chinese", "italian",
   "mexican", "indian", "thai", "japanese", "korean", "vietnamese", "american",
   "french", "mediterranean", "bbq", "seafood", "steakhouse", "cafe", "coffee",
   "breakfast", "brunch", "lunch", "dinner"]

/-- `query_patterns[1]`: taste and cooking descriptors. -/
def queryPattern2 : List String :=
  ["spicy", "mild", "hot", "sweet", "savory", "tangy", "crispy", "fried",
   "grilled", "baked", "roasted"]

/-- `query_patterns[2]`: brand names (`mcdonalds?` contributes both
spellings; the two `\s*`-spanning brands are outside the token model). -/
def queryPattern3 : List String :=
  ["mcdonald", "mcdonalds", "subway", "starbucks", "kfc", "dominos", "chipotle"]

/-- `query_patterns[3]`: generic venue words. -/
def queryPattern4 : List String :=
  ["restaurant", "place", "spot", "joint", "bar", "grill", "bistro", "diner",
   "kitchen"]

/-- The generic terms filtered out when choosing the single query. -/
def genericTerms : List String := ["restaurant", "place", "spot", "joint", "bar"]

/-- The `category_mapping` cuisine/food → Foursquare category id table. -/
def categoryMapping : String → Option String
  | "restaurant" => some "13065"
  | "fast food" => some "13145"
  | "cafe" => some "13032"
  | "bar" => some "13003"
  | "italian" => some "13236"
  | "chinese" => some "13099"
  | "mexican" => some "13303"
  | "indian" => some "13199"
  | "japanese" => some "13263"
  | "thai" => some "13352"
  | "american" => some "13064"
  | "french" => some "13148"
  | "mediterranean" => some "13305"
  | "korean" => some "13276"
  | "vietnamese" => some "13360"
  | "seafood" => some "13338"
  | "pizza" => some "13064"
  | "burger" => some "13064"
  | "sushi" => some "13338"
  | "bbq" => some "13061"
  | "steakhouse" => some "13345"
  | "breakfast" => some "13065"
  | "coffee" => some "13032"
  | _ => none

/-- `price_patterns` in dict insertion order. -/
def priceTerms : List (List String × (Int × Int)) :=
  [(["cheap"], (1, 2)), (["budget"], (1, 2)), (["affordable"], (1, 2)),
   (["expensive"], (3, 4)), (["pricey"], (3, 4)), (["upscale"], (3, 4)),
   (["fine", "dining"], (4, 4)), (["mid-range"], (2, 3)), (["moderate"], (2, 3))]

/-- The two timing regex alternation groups, flattened. -/
def timingTerms : List (List String) :=
  [["open", "now"], ["right", "now"], ["currently", "open"],
   ["tonight"], ["today"], ["now"]]

/-- `sort_patterns` in dict insertion order. -/
def sortTerms : List (List String × String) :=
  [(["best", "rated"], "rating"), (["highest", "rated"], "rating"),
   (["top", "rated"], "rating"), (["closest"], "distance"),
   (["nearby"], "distance"), (["nearest"], "distance")]

def budgetKeywords : List String := ["budget", "spend", "under", "around", "about"]

/-- `(?:budget|spend|under|around|about)\s+(?:of\s+)?(\d+)` captures, in
text order. -/
def budgetNums : List String → List Nat
  | [] => []
  | [_] => []
  | w :: x :: more =>
    if w ∈ budgetKeywords then
      match (if x = "of" then (more.headD "") else x) |> parseNatWord with
      | some n => n :: budgetNums (x :: more)
      | none => budgetNums (x :: more)
    else budgetNums (x :: more)

/-- All query-pattern matches, per pattern in text order (`re.findall`
per pattern, concatenated). -/
def queryMatches (words : List String) : List String :=
  [queryPattern1, queryPattern2, queryPattern3, queryPattern4].flatMap
    (fun pat => words.filter (fun w => pat.contains w))

/-- One location pattern: the alphabetic tokens following the first
occurrence of the capture keyword, if their joined length exceeds 3. -/
def locFrom (pat : List String) (words : List String) : Option String :=
  match afterSeq pat words with
  | some rest =>
    let loc := String.intercalate " "
      (rest.takeWhile (fun w => w.data.all Char.isAlpha))
    if 3 < loc.length then some loc else none
  | none => none

/-- The location patterns tried in order (`near`, `in`, `around`,
`close to`), moving on when a capture is 3 characters or shorter. -/
def locationCapture (words : List String) : Option String :=
  match locFrom ["near"] words with
  | some l => some l
  | none =>
    match locFrom ["in"] words with
    | some l => some l
    | none =>
      match locFrom ["around"] words with
      | some l => some l
      | none => locFrom ["close", "to"] words

/-- The result dict of the `foursquare_parameter_extractor` tool. -/
structure ExtractionResult where
  foursquare_params : GroupPrefs.FoursquareParams
  relevance_score : ℚ
  parameters_extracted : Nat
  message_length : Nat
  raw_query_matches : List String
deriving DecidableEq

/-- The `v is not None and v != [] and v != ""` truthiness count over the
seven parameter slots (note: an integer 0 would count, unlike Python `if
v:` truthiness elsewhere). -/
def paramTruthyCount (fp : GroupPrefs.FoursquareParams) : Nat :=
  (match fp.query with
   | some s => if s = "" then 0 else 1
   | none => 0) +
  (if fp.fsq_category_ids ≠ [] then 1 else 0) +
  (if fp.min_price.isSome then 1 else 0) +
  (if fp.max_price.isSome then 1 else 0) +
  (if fp.open_now.isSome then 1 else 0) +
  (match fp.near with
   | some s => if s = "" then 0 else 1
   | none => 0) +
  (match fp.sort with
   | some s => if s = "" then 0 else 1
   | none => 0)

/-- `foursquare_parameter_extractor` over the token model.  The text is
assumed already lowercase where the source lowercases (`text_lower`); the
location capture runs on the same tokens. -/
def fsqExtract (words : List String) : ExtractionResult :=
  let qm := queryMatches words
  let specific := qm.filter (fun q => ¬ genericTerms.contains q)
  let query : Option String :=
    if qm ≠ [] then
      some (match specific with
            | s :: _ => s
            | [] => qm.headD "")
    else none
  let cats := pyDedup (qm.filterMap categoryMapping)
  let priceFromTerms : Option (Int × Int) :=
    (priceTerms.find? (fun pr => containsTerm words pr.1)).map (fun pr => pr.2)
  let dollarAmounts := words.filterMap parseDollarWord
  let budgetAmounts := budgetNums words
  let numberAmounts := words.filterMap parsePlainNumber
  let amount : Option Nat :=
    if dollarAmounts ≠ [] then dollarAmounts.head?
    else if budgetAmounts ≠ [] then budgetAmounts.head?
    else (numberAmounts.filter (fun n => 50 ≤ n ∧ n ≤ 5000)).head?
  let priceFromAmount : Option (Int × Int) :=
    match amount with
    | some a =>
      if a = 0 then none
      else some (if a ≤ 20 then (1, 1)
                 else if a ≤ 50 then (1, 2)
                 else if a ≤ 150 then (2, 3)
                 else if a ≤ 400 then (3, 4)
                 else (4, 4))
    | none => none
  let pricePair : Option (Int × Int) :=
    match priceFromAmount with
    | some p => some p
    | none => priceFromTerms
  let openNow : Option Bool :=
    if timingTerms.any (fun t => containsTerm words t) then some true else none
  let near := locationCapture words
  let sort : Option String :=
    (sortTerms.find? (fun pr => containsTerm words pr.1)).map (fun pr => pr.2)
  let fp : GroupPrefs.FoursquareParams :=
    { query := query
      fsq_category_ids := cats
      min_price := pricePair.map (fun p => p.1)
      max_price := pricePair.map (fun p => p.2)
      open_now := openNow
      near := near
      sort := sort }
  let pcount := paramTruthyCount fp
  { foursquare_params := fp
    relevance_score := min 1 ((pcount : ℚ) / 4)
    parameters_extracted := pcount
    message_length := words.length
    raw_query_matches := qm }

/-- The spec formula for the extractor relevance score, written from the
spec sentence `relevance score = min(1.0, total_keywords_found /
max(1, word_count) * 5)` for refinement comparison with the code. -/
def specRelevanceFormula (keywordsFound wordCount : Nat) : ℚ :=
  min 1 ((keywordsFound : ℚ) / (max 1 (wordCount : ℚ)) * 5)

/-- The `sentiment_analyzer` tool result. -/
structure Sentiment where
  overall_sentiment : String
  confidence : ℚ
  enthusiasm_level : String
  group_agreement : String
deriving DecidableEq

def positiveWords : List (List String) :=
  [["love"], ["amazing"], ["delicious"], ["great"], ["awesome"], ["perfect"],
   ["craving"], ["excited"]]

def negativeWords : List (List String) :=
  [["hate"], ["terrible"], ["awful"], ["bad"], ["horrible"], ["disappointed"]]

def enthusiasmMarkers : List (List String) :=
  [["!!"], ["omg"], ["definitely"], ["must", "try"]]

def agreementWords : List (List String) :=
  [["everyone"], ["we", "all"], ["agreed"]]

def disagreementWords : List (List String) :=
  [["but"], ["however"], ["disagree"]]

/-- `sentiment_analyzer` over the token model (counts vocabulary terms
present, not occurrences). -/
def sentimentAnalyze (words : List String) : Sentiment :=
  let pc := (positiveWords.filter (fun t => containsTerm words t)).length
  let nc := (negativeWords.filter (fun t => containsTerm words t)).length
  let ec := (enthusiasmMarkers.filter (fun t => containsTerm words t)).length
  { overall_sentiment :=
      if nc < pc then "positive" else if pc < nc then "negative" else "neutral"
    confidence := min (9/10) (1/2 + |(pc : ℚ) - (nc : ℚ)| * (1/10))
    enthusiasm_level := if 1 < ec then "high" else if 0 < ec then "medium" else "low"
    group_agreement :=
      if agreementWords.any (fun t => containsTerm words t) then "high"
      else if disagreementWords.any (fun t => containsTerm words t) then "low"
      else "unknown" }

/-- One detected restaurant mention. -/
structure Mention where
  name : String
  context : String
  confidence : ℚ
deriving DecidableEq

def restaurantIndicators : List String := ["restaurant", "place", "spot", "cafe", "bar"]

/-- The experience context inferred for every mention (`visited` phrases
checked before `recommended`, anywhere in the text). -/
def mentionContext (words : List String) : String :=
  if containsTerm words ["went", "to"] || containsTerm words ["tried"] then "visited"
  else if containsTerm words ["recommend"] || containsTerm words ["suggest"] then
    "recommended"
  else "unknown"

def detectMentionsGo (ctx : String) (prev : String) : List String → List Mention
  | [] => []
  | w :: ws =>
    (if restaurantIndicators.contains (lowerStr w) then
       [{ name := prev, context := ctx, confidence := 7/10 }]
     else []) ++ detectMentionsGo ctx w ws

/-- `restaurant_mention_detector`: the token before each indicator word
(indicators in position 0 excluded by `i > 0`). -/
def detectMentions (words : List String) : List Mention :=
  match words with
  | [] => []
  | w :: ws => detectMentionsGo (mentionContext (words.map lowerStr)) w ws

/-- `group_dynamics` as produced by `_integrate_context`. -/
structure GroupDynamics where
  influence_level : String
  consensus_building : String
deriving DecidableEq

def leadershipPhrases : List (List String) :=
  [["let\x27s"], ["how", "about"], ["i", "suggest"]]

/-- The slice of `user_context` the pipeline reads. -/
structure UserContext where
  message_id : Option String
  user_id : Option String
  group_id : Option String
deriving DecidableEq

/-- The analysis record assembled by `_synthesize_results` (and, with the
documented dict-get defaults for its absent keys, the fallback record of
`analyze_message`). -/
structure AnalysisRecord where
  message_id : Option String
  user_id : Option String
  group_id : Option String
  foursquare_parameters : GroupPrefs.FoursquareParams
  relevance_score : ℚ
  parameters_extracted : Nat
  overall_relevance : ℚ
  should_update_preferences : Bool
  requires_follow_up : Bool
  consensus_indicator : String
  api_ready : Bool
  error : Option String
deriving DecidableEq

/-- The accumulating `MessageAnalysisState`.  The three confidence scores
start at 0 (the empty dict) and `analysis_results` is `none` until
synthesis runs. -/
structure PipelineState where
  raw_message : List String
  user_context : UserContext
  extracted_preferences : List ExtractionResult
  sentiment_analysis : Option Sentiment
  restaurant_mentions : List Mention
  group_dynamics : Option GroupDynamics
  confidence_overall : ℚ
  confidence_param_density : ℚ
  confidence_fsq_compat : ℚ
  analysis_results : Option AnalysisRecord
  next_action : String

def initState (msg : List String) (ctx : UserContext) : PipelineState :=
  { raw_message := msg
    user_context := ctx
    extracted_preferences := []
    sentiment_analysis := none
    restaurant_mentions := []
    group_dynamics := none
    confidence_overall := 0
    confidence_param_density := 0
    confidence_fsq_compat := 0
    analysis_results := none
    next_action := "initial_analysis" }

def stageInitial (s : PipelineState) : PipelineState :=
  { s with next_action := "preference_extraction" }

def stageExtract (s : PipelineState) : PipelineState :=
  { s with extracted_preferences := [fsqExtract s.raw_message]
           next_action := "sentiment_analysis" }

def stageSentiment (s : PipelineState) : PipelineState :=
  { s with sentiment_analysis := some (sentimentAnalyze s.raw_message)
           next_action := "restaurant_detection" }

def stageMentions (s : PipelineState) : PipelineState :=
  { s with restaurant_mentions := detectMentions s.raw_message
           next_action := "context_integration" }

def stageContext (s : PipelineState) : PipelineState :=
  { s with
    group_dynamics := some
      { influence_level :=
          if leadershipPhrases.any
              (fun p => containsTerm (s.raw_message.map lowerStr) p)
          then "high" else "medium"
        consensus_building :=
          (s.sentiment_analysis.map (fun x => x.group_agreement)).getD "unknown" }
    next_action := "confidence_scoring" }

def stageConfidence (s : PipelineState) : PipelineState :=
  let e? := s.extracted_preferences.head?
  let base : ℚ :=
    match e? with
    | some e => e.relevance_score
    | none => 0
  let pcount : Nat :=
    match e? with
    | some e => e.parameters_extracted
    | none => 0
  let fp :=
    match e? with
    | some e => e.foursquare_params
    | none => GroupPrefs.emptyParams
  let factors : List ℚ :=
    [base] ++
    (if 0 < pcount then [min 1 ((pcount : ℚ) / 4)] else []) ++
    (if GroupPrefs.strTruthy fp.query then [9/10] else []) ++
    (if fp.fsq_category_ids ≠ [] then [4/5] else []) ++
    (if GroupPrefs.intTruthy fp.min_price || GroupPrefs.intTruthy fp.max_price
      then [7/10] else []) ++
    (if GroupPrefs.strTruthy fp.near then [3/5] else []) ++
    (if s.restaurant_mentions ≠ [] then [9/10] else [])
  { s with
    confidence_overall :=
      if factors ≠ [] then factors.sum / (factors.length : ℚ) else 1/10
    confidence_param_density := min 1 ((pcount : ℚ) / 5)
    confidence_fsq_compat := if 0 < pcount then 1 else 0
    next_action := "final_synthesis" }

def stageSynthesis (s : PipelineState) : PipelineState :=
  let e? := s.extracted_preferences.head?
  let fp :=
    match e? with
    | some e => e.foursquare_params
    | none => GroupPrefs.emptyParams
  let r : AnalysisRecord :=
    { message_id := s.user_context.message_id
      user_id := s.user_context.user_id
      group_id := s.user_context.group_id
      foursquare_parameters := fp
      relevance_score :=
        match e? with
        | some e => e.relevance_score
        | none => 0
      parameters_extracted :=
        match e? with
        | some e => e.parameters_extracted
        | none => 0
      overall_relevance := s.confidence_overall
      should_update_preferences := decide ((2 : ℚ)/5 < s.confidence_overall)
      requires_follow_up :=
        decide ((s.sentiment_analysis.map (fun x => x.enthusiasm_level)).getD ""
          = "high")
      consensus_indicator :=
        (s.group_dynamics.map (fun x => x.consensus_building)).getD "unknown"
      api_ready := decide ((0 : ℚ) < s.confidence_fsq_compat)
      error := none }
  { s with analysis_results := some r }

/-- A pipeline stage as run by the workflow: a state transform that can
raise. -/
abbrev Stage := PipelineState → Except String PipelineState

/-- A stage that cannot raise. -/
def okStage (f : PipelineState → PipelineState) : Stage :=
  fun s => Except.ok (f s)

/-- The compiled seven-stage workflow, in edge order. -/
def pipelineStages : List Stage :=
  [okStage stageInitial, okStage stageExtract, okStage stageSentiment,
   okStage stageMentions, okStage stageContext, okStage stageConfidence,
   okStage stageSynthesis]

/-- `workflow.ainvoke`: run the stages in sequence; a raise at any stage
aborts the rest. -/
def runPipeline (stages : List Stage) (s0 : PipelineState) :
    Except String PipelineState :=
  stages.foldl (fun acc st => acc.bind st) (Except.ok s0)

/-- The fallback dict built in `analyze_message`'s `except` handler; its
absent keys read back as the dict-get defaults recorded here. -/
def fallbackRecord (e : String) (ctx : UserContext) : AnalysisRecord :=
  { message_id := ctx.message_id
    user_id := ctx.user_id
    group_id := ctx.group_id
    foursquare_parameters := GroupPrefs.emptyParams
    relevance_score := 0
    parameters_extracted := 0
    overall_relevance := 0
    should_update_preferences := false
    requires_follow_up := false
    consensus_indicator := ""
    api_ready := false
    error := some e }

/-- The empty `analysis_results` dict, read back through dict-get
defaults. -/
def emptyResultsRecord : AnalysisRecord :=
  { message_id := none
    user_id := none
    group_id := none
    foursquare_parameters := GroupPrefs.emptyParams
    relevance_score := 0
    parameters_extracted := 0
    overall_relevance := 0
    should_update_preferences := false
    requires_follow_up := false
    consensus_indicator := ""
    api_ready := false
    error := none }

/-- `analyze_message` with an explicit stage list: the whole run is inside
one `try`, and any raise is converted to the fallback record. -/
def analyzeMessageWith (stages : List Stage) (msg : List String)
    (ctx : UserContext) : AnalysisRecord :=
  match runPipeline stages (initState msg ctx) with
  | Except.ok s => s.analysis_results.getD emptyResultsRecord
  | Except.error e => fallbackRecord e ctx

/-- `LangGraphAnalyzer.analyze_message` on the compiled workflow. -/
def analyzeMessage (msg : List String) (ctx : UserContext) : AnalysisRecord :=
  analyzeMessageWith pipelineStages msg ctx

/-- A stage that always raises, for exercising the failure path. -/
def failingStage : Stage := fun _ => Except.error "analysis failure"

def ctx0 : UserContext := { message_id := none, user_id := none, group_id := none }

def helloSpicy : List String := ["hello", "spicy"]

end Analyzer

namespace Keywords

open PyModel

/-!
The keyword-merge step of
`GroupPreferencesService._update_keywords_from_llm`
(`src/app/services/group_preference_service.py`, lines 80-94).  The merge
operates on the `llm_keywords` dict (category name → keyword list) of the
preference document the service treats as the member's record; the
`last_updated` timestamp entry written afterwards holds a string, not a
category list, and is outside the keyword-map model.
-/

/-- A category-name → keyword-list map, insertion ordered. -/
abbrev KeywordMap := List (String × List String)

/-- Merge one category: append each new word absent from the combined
list, then keep only the most recent 20 (`combined[-20:]`). -/
def mergeCategory (existing new : List String) : List String :=
  let combined :=
    new.foldl (fun acc w => if w ∈ acc then acc else acc ++ [w]) existing
  combined.drop (combined.length - 20)

/-- The per-category merge loop over the extracted keyword dict: empty
new-word lists are skipped, each other category is merged and stored. -/
def updateKeywords (km : KeywordMap) (extracted : List (String × List String)) :
    KeywordMap :=
  extracted.foldl
    (fun cur p =>
      if p.2 ≠ [] then
        dictSet cur p.1 (mergeCategory (dictGetD cur p.1 []) p.2)
      else cur)
    km

end Keywords

namespace RecEngine

open PyModel

/-!
The scoring and diversity-filtering core of
`AdvancedRecommendationEngine` (`src/app/services/recommendation_engine.py`).

Python floats are modelled over `ℚ`.  The haversine fallback distance of
`_score_location_convenience` (computed when `restaurant.distance` is
falsy) enters as an explicit `fallbackDistance` argument, and the
`datetime.utcnow()` read in `_score_novelty_factor` as an explicit `now`
(both quantified over in the theorems).  `_score_group_preference_match`
reads `preferred_cuisines`, `min_price_range`, `max_price_range`,
`dietary_restrictions` and `disliked_cuisines` off its group-preferences
argument; the `GroupPreferences` document class does not declare those
attributes, so the record the scorer's code is written against is modelled
as `GroupScoringPrefs`.
-/

/-- The slice of the `Restaurant` document the scorer and diversity filter
read.  Optional numeric fields keep their present/absent distinction
(Python truthiness additionally treats 0 as absent at each use site);
`photos`/`reviews` are only tested for non-emptiness. -/
structure Restaurant where
  fsq_id : String
  cuisine_types : List String
  price : Option Int
  rating : Option ℚ
  popularity : Option ℚ
  distance : Option ℚ
  features : List String
  dietary_options : List String
  photos : List String
  reviews : List String
  created_at : Option Int
deriving DecidableEq

structure RecommendationContext where
  time_of_day : String
  occasion : Option String
  group_size : Option Int
  urgency : String
  weather : Option String
  budget_preference : Option String
deriving DecidableEq

/-- The group-preference attributes `_score_group_preference_match`
dereferences. -/
structure GroupScoringPrefs where
  preferred_cuisines : List String
  min_price_range : Option Int
  max_price_range : Option Int
  dietary_restrictions : List String
  disliked_cuisines : List String
deriving DecidableEq

/-- The slice of `UserPreferenceProfile` the satisfaction scorer reads. -/
structure UserPreferenceProfile where
  user_id : String
  cuisine_preferences : List (String × ℚ)
  price_sensitivity : ℚ
  dietary_restrictions : List String
deriving DecidableEq

def lowerList (l : List String) : List String := l.map Analyzer.lowerStr

/-- `Restaurant.has_dietary_option`. -/
def hasDietaryOption (r : Restaurant) (restriction : String) : Bool :=
  (lowerList r.dietary_options).contains (Analyzer.lowerStr restriction)

/-- `dict.get(key, 0.0)` over the cuisine-preference map. -/
def lookupQ (prefs : List (String × ℚ)) (k : String) : ℚ :=
  match prefs.find? (fun p => p.1 = k) with
  | some p => p.2
  | none => 0

/-- Substring containment (`needle in hay`) at character level. -/
def charRunAt : List Char → List Char → Bool
  | [], _ => true
  | _ :: _, [] => false
  | a :: as, b :: bs => (a == b) && charRunAt as bs

def charRunIn (needle : List Char) : List Char → Bool
  | [] => charRunAt needle []
  | c :: cs => charRunAt needle (c :: cs) || charRunIn needle cs

def strContains (hay needle : String) : Bool :=
  charRunIn needle.data hay.data

/-- `_score_group_preference_match`: average of up to three component
matches minus a flat disliked-cuisine penalty. -/
def scoreGroupPreferenceMatch (r : Restaurant) (gp : GroupScoringPrefs) : ℚ :=
  let cuisinePart : ℚ × Nat :=
    if gp.preferred_cuisines ≠ [] then
      (if r.cuisine_types.any
          (fun c => (lowerList gp.preferred_cuisines).contains (Analyzer.lowerStr c))
        then 1 else 0, 1)
    else (0, 0)
  let pricePart : ℚ × Nat :=
    match r.price, gp.min_price_range, gp.max_price_range with
    | some p, some lo, some hi =>
      if p ≠ 0 ∧ lo ≠ 0 ∧ hi ≠ 0 then
        (if lo ≤ p ∧ p ≤ hi then 1
         else max 0 (1 - min |(p : ℚ) - (lo : ℚ)| |(p : ℚ) - (hi : ℚ)| * (3/10)),
         1)
      else (0, 0)
    | _, _, _ => (0, 0)
  let dietaryPart : ℚ × Nat :=
    if gp.dietary_restrictions ≠ [] then
      (((gp.dietary_restrictions.filter (fun d => hasDietaryOption r d)).length : ℚ) /
        (gp.dietary_restrictions.length : ℚ), 1)
    else (0, 0)
  let penalty : ℚ :=
    if gp.disliked_cuisines ≠ [] then
      if r.cuisine_types.any
          (fun c => (lowerList gp.disliked_cuisines).contains (Analyzer.lowerStr c))
        then 1/2 else 0
    else 0
  let score := cuisinePart.1 + pricePart.1 + dietaryPart.1 - penalty
  let factors := cuisinePart.2 + pricePart.2 + dietaryPart.2
  if 0 < factors then score / max 1 (factors : ℚ) else 1/2

/-- `_score_individual_satisfaction`: mean member score plus a harmony
bonus from the population variance, normalized by 1.3. -/
def scoreIndividualSatisfaction (r : Restaurant)
    (profiles : List UserPreferenceProfile) : ℚ :=
  if profiles = [] then 1/2
  else
    let individual := profiles.map (fun pr =>
      let cuisineScore := r.cuisine_types.foldl
        (fun m c => max m (lookupQ pr.cuisine_preferences (Analyzer.lowerStr c))) 0
      let priceScore : ℚ :=
        match r.price with
        | some p =>
          if p ≠ 0 then max 0 (1 - |(p : ℚ)/4 - pr.price_sensitivity|) * (3/10)
          else 0
        | none => 0
      let dietaryScore : ℚ :=
        if pr.dietary_restrictions.all (fun d => hasDietaryOption r d) then 1 else 0
      cuisineScore * (2/5) + priceScore + dietaryScore * (3/10))
    let n : ℚ := (individual.length : ℚ)
    let avg := individual.sum / n
    let variance := (individual.map (fun x => (x - avg) ^ 2)).sum / n
    let harmony := max 0 (1 - variance)
    (avg + harmony * (3/10)) / (13/10)

/-- `_score_location_convenience`: the step function of the effective
distance (`restaurant.distance` when truthy, else the haversine value). -/
def scoreLocationConvenience (r : Restaurant) (fallbackDistance : ℚ) : ℚ :=
  let d : ℚ :=
    match r.distance with
    | some d0 => if d0 ≠ 0 then d0 else fallbackDistance
    | none => fallbackDistance
  if d ≤ 500 then 1
  else if d ≤ 1000 then 9/10
  else if d ≤ 2000 then 7/10
  else if d ≤ 5000 then 1/2
  else 1/5

/-- The `time_appropriateness` lookup table. -/
def timeAppropriateness : String → List (String × ℚ)
  | "breakfast" => [("cafe", 9/10), ("american", 4/5), ("french", 7/10)]
  | "lunch" =>
    [("fast_food", 9/10), ("american", 4/5), ("italian", 4/5), ("asian", 4/5)]
  | "dinner" =>
    [("fine_dining", 9/10), ("italian", 9/10), ("french", 9/10), ("indian", 4/5)]
  | "late_night" => [("fast_food", 9/10), ("american", 4/5), ("pizza", 9/10)]
  | _ => []

/-- `_score_contextual_fit`: time-of-day fit averaged with a 0.5 base,
then occasion and group-size adjustments, capped at 1. -/
def scoreContextualFit (r : Restaurant) (ctx : RecommendationContext) : ℚ :=
  let timeScore := r.cuisine_types.foldl
    (fun ts c =>
      (timeAppropriateness ctx.time_of_day).foldl
        (fun ts2 kv =>
          if strContains (Analyzer.lowerStr c) kv.1 then max ts2 kv.2 else ts2)
        ts)
    (1/2)
  let afterTime := ((1 : ℚ)/2 + timeScore) / 2
  let occBonus : ℚ :=
    if ctx.occasion = some "celebration" ∧
        r.price.any (fun p => decide (p ≠ 0 ∧ 3 ≤ p)) then 1/5
    else if ctx.occasion = some "casual" ∧
        r.price.any (fun p => decide (p ≠ 0 ∧ p ≤ 2)) then 1/10
    else if ctx.occasion = some "business" ∧
        r.rating.any (fun q => decide (q ≠ 0 ∧ 7 ≤ q)) then 3/20
    else 0
  let sizeAdj : ℚ :=
    match ctx.group_size with
    | some gs =>
      if gs = 0 then 0
      else if gs ≤ 2 then (if r.features.contains "intimate" then 1/10 else 0)
      else if 6 ≤ gs then
        (if r.features.contains "large_groups" then 1/5 else -(1/10))
      else 0
    | none => 0
  min 1 (afterTime + occBonus + sizeAdj)

/-- `_score_quality_indicators`: mean of the available quality signals. -/
def scoreQualityIndicators (r : Restaurant) : ℚ :=
  let ratingPart : ℚ × Nat :=
    match r.rating with
    | some q => if q ≠ 0 then (q / 10, 1) else (0, 0)
    | none => (0, 0)
  let popularityPart : ℚ × Nat :=
    match r.popularity with
    | some q => if q ≠ 0 then (q, 1) else (0, 0)
    | none => (0, 0)
  let photosPart : ℚ × Nat := if r.photos ≠ [] then (4/5, 1) else (0, 0)
  let reviewsPart : ℚ × Nat := if r.reviews ≠ [] then (7/10, 1) else (0, 0)
  let featuresPart : ℚ × Nat :=
    if r.features ≠ [] then (min 1 ((r.features.length : ℚ) * (1/10)), 1)
    else (0, 0)
  let score := ratingPart.1 + popularityPart.1 + photosPart.1 + reviewsPart.1 +
    featuresPart.1
  let factors := ratingPart.2 + popularityPart.2 + photosPart.2 + reviewsPart.2 +
    featuresPart.2
  score / max 1 (factors : ℚ)

def uncommonCuisines : List String :=
  ["ethiopian", "peruvian", "moroccan", "korean", "vietnamese"]

/-- `_score_novelty_factor`: 0.5 baseline, 0.8 for uncommon cuisines, +0.2
for records younger than 180 days, capped at 1 (`now` and `created_at`
measured in days). -/
def scoreNoveltyFactor (r : Restaurant) (now : Int) : ℚ :=
  let base : ℚ :=
    if r.cuisine_types.any (fun c => uncommonCuisines.contains (Analyzer.lowerStr c))
    then 4/5 else 1/2
  let boosted : ℚ :=
    match r.created_at with
    | some t => if now - 180 < t then base + 1/5 else base
    | none => base
  min 1 boosted

/-- `_apply_contextual_adjustments`: urgency, weather and budget
adjustments added to the weighted score. -/
def applyContextualAdjustments (base : ℚ) (r : Restaurant)
    (ctx : RecommendationContext) : ℚ :=
  let urgencyAdj : ℚ :=
    if ctx.urgency = "high" ∧
        r.popularity.any (fun q => decide (q ≠ 0 ∧ q < 7/10)) then 1/10
    else 0
  let weatherAdj : ℚ :=
    match ctx.weather with
    | some w =>
      if w = "" then 0
      else if w = "rainy" ∧ r.features.contains "outdoor_seating" then -(1/10)
      else if w = "sunny" ∧ r.features.contains "outdoor_seating" then 1/10
      else 0
    | none => 0
  let budgetAdj : ℚ :=
    if ctx.budget_preference = some "budget" ∧
        r.price.any (fun p => decide (p ≠ 0 ∧ 2 < p)) then -(1/5)
    else if ctx.budget_preference = some "luxury" ∧
        r.price.any (fun p => decide (p ≠ 0 ∧ p < 3)) then -(1/10)
    else 0
  base + urgencyAdj + weatherAdj + budgetAdj

/-- `_calculate_comprehensive_score`: the six weighted sub-scores, the
contextual adjustments, then the clamp to [0, 1]. -/
def calculateComprehensiveScore (r : Restaurant) (ctx : RecommendationContext)
    (gp : GroupScoringPrefs) (profiles : List UserPreferenceProfile)
    (fallbackDistance : ℚ) (now : Int) : ℚ :=
  let weighted :=
    scoreGroupPreferenceMatch r gp * (1/4) +
    scoreIndividualSatisfaction r profiles * (1/5) +
    scoreLocationConvenience r fallbackDistance * (3/20) +
    scoreContextualFit r ctx * (3/20) +
    scoreQualityIndicators r * (3/20) +
    scoreNoveltyFactor r now * (1/10)
  min 1 (max 0 (applyContextualAdjustments weighted r ctx))

/-- A `(restaurant, score)` pair. -/
abbrev Scored := Restaurant × ℚ

/-- The `(primary-cuisine-pair, price-tier)` diversity key
(`tuple(sorted(cuisine_types[:2])), price or 0`). -/
def comboKey (r : Restaurant) : List String × Int :=
  (List.insertionSort (fun a b => a ≤ b) (r.cuisine_types.take 2), r.price.getD 0)

/-- The first diversity pass: greedily keep one restaurant per combo key
(always keeping the first five), stopping at 15. -/
def firstPassGo : List Scored → List Scored → List (List String × Int) →
    List Scored
  | [], acc, _ => acc
  | (r, s) :: rest, acc, used =>
    let key := comboKey r
    if key ∉ used ∨ acc.length < 5 then
      let acc2 := acc ++ [(r, s)]
      if 15 ≤ acc2.length then acc2
      else firstPassGo rest acc2 (key :: used)
    else firstPassGo rest acc used

def firstPass (scored : List Scored) : List Scored :=
  firstPassGo scored [] []

/-- The second pass: backfill up to the remaining slots with restaurants
whose id was not selected in the first pass (the id set is not updated
while backfilling). -/
def secondPassGo : List Scored → List String → Nat → List Scored
  | [], _, _ => []
  | (r, s) :: rest, ids, slots =>
    if r.fsq_id ∉ ids ∧ 0 < slots then
      (r, s) :: secondPassGo rest ids (slots - 1)
    else secondPassGo rest ids slots

/-- `_apply_diversity_filter`: inputs of at most 10 pass through; larger
inputs go through the two passes and a final sort by descending score. -/
def applyDiversityFilter (scored : List Scored) : List Scored :=
  if scored.length ≤ 10 then scored
  else
    let d1 := firstPass scored
    let addedIds := d1.map (fun p => p.1.fsq_id)
    let d2 := d1 ++ secondPassGo scored addedIds (20 - d1.length)
    List.insertionSort (fun a b => b.2 ≤ a.2) d2

/-- A restaurant with every optional field absent. -/
def bareRestaurant (id : String) : Restaurant :=
  { fsq_id := id
    cuisine_types := []
    price := none
    rating := none
    popularity := none
    distance := none
    features := []
    dietary_options := []
    photos := []
    reviews := []
    created_at := none }

/-- Eleven copies of one restaurant (one duplicated id, input size > 10). -/
def dupScored : List Scored := List.replicate 11 (bareRestaurant "x", 0)

/-- Eleven distinct-id restaurants. -/
def distinctScored : List Scored :=
  [(bareRestaurant "a", 0), (bareRestaurant "b", 0), (bareRestaurant "c", 0),
   (bareRestaurant "d", 0), (bareRestaurant "e", 0), (bareRestaurant "f", 0),
   (bareRestaurant "g", 0), (bareRestaurant "h", 0), (bareRestaurant "i", 0),
   (bareRestaurant "j", 0), (bareRestaurant "k", 0)]

end RecEngine

namespace PyModel

theorem mem_pyDedupAux [DecidableEq α] {a : α} :
    ∀ (l seen : List α), a ∈ pyDedupAux seen l ↔ a ∈ l ∧ a ∉ seen := by
  intro l
  induction l with
  | nil => intro seen; simp [pyDedupAux]
  | cons x xs ih =>
    intro seen
    by_cases hx : x ∈ seen
    · simp only [pyDedupAux, if_pos hx, ih]
      constructor
      · rintro ⟨h1, h2⟩; exact ⟨List.mem_cons_of_mem _ h1, h2⟩
      · rintro ⟨h1, h2⟩
        rcases List.mem_cons.mp h1 with rfl | h1
        · exact absurd hx h2
        · exact ⟨h1, h2⟩
    · simp only [pyDedupAux, if_neg hx]
      constructor
      · intro h
        rcases List.mem_cons.mp h with rfl | h
        · exact ⟨List.mem_cons_self _ _, hx⟩
        · rcases (ih (x :: seen)).mp h with ⟨h1, h2⟩
          refine ⟨List.mem_cons_of_mem _ h1, fun hc => h2 (List.mem_cons_of_mem _ hc)⟩
      · rintro ⟨h1, h2⟩
        rcases List.mem_cons.mp h1 with rfl | h1
        · exact List.mem_cons_self _ _
        · by_cases hax : a = x
          · subst hax; exact List.mem_cons_self _ _
          · exact List.mem_cons_of_mem _
              ((ih (x :: seen)).mpr ⟨h1, fun hc => by
                rcases List.mem_cons.mp hc with h | h
                · exact hax h
                · exact h2 h⟩)

theorem mem_pyDedup [DecidableEq α] {a : α} {l : List α} :
    a ∈ pyDedup l ↔ a ∈ l := by
  simp [pyDedup, mem_pyDedupAux]

theorem nodup_pyDedupAux [DecidableEq α] :
    ∀ (l seen : List α), (pyDedupAux seen l).Nodup := by
  intro l
  induction l with
  | nil => intro seen; simp [pyDedupAux]
  | cons x xs ih =>
    intro seen
    by_cases hx : x ∈ seen
    · simpa [pyDedupAux, if_pos hx] using ih seen
    · simp only [pyDedupAux, if_neg hx]
      refine List.nodup_cons.mpr ⟨fun hc => ?_, ih (x :: seen)⟩
      exact ((mem_pyDedupAux xs (x :: seen)).mp hc).2 (List.mem_cons_self _ _)

theorem nodup_pyDedup [DecidableEq α] (l : List α) : (pyDedup l).Nodup :=
  nodup_pyDedupAux l []

/-- Permutations yield permuted deduplications. -/
theorem pyDedup_perm_of_perm [DecidableEq α] {l₁ l₂ : List α} (h : List.Perm l₁ l₂) :
    List.Perm (pyDedup l₁) (pyDedup l₂) := by
  apply List.perm_of_nodup_nodup_toFinset_eq (nodup_pyDedup l₁) (nodup_pyDedup l₂)
  ext a
  simp [List.mem_toFinset, mem_pyDedup, h.mem_iff]

theorem pyMaxGo_mem (f : α → Nat) :
    ∀ (vs : List α) (b : α), pyMaxGo f b vs = b ∨ pyMaxGo f b vs ∈ vs := by
  intro vs
  induction vs with
  | nil => intro b; exact Or.inl rfl
  | cons v vs ih =>
    intro b
    simp only [pyMaxGo]
    rcases ih (if f b < f v then v else b) with h | h
    · rw [h]
      by_cases hc : f b < f v
      · simp [hc]
      · simp [hc]
    · exact Or.inr (List.mem_cons_of_mem _ h)

theorem pyMaxGo_le (f : α → Nat) :
    ∀ (vs : List α) (b : α),
      f b ≤ f (pyMaxGo f b vs) ∧ ∀ v ∈ vs, f v ≤ f (pyMaxGo f b vs) := by
  intro vs
  induction vs with
  | nil => intro b; exact ⟨Nat.le_refl _, by simp⟩
  | cons v vs ih =>
    intro b
    simp only [pyMaxGo]
    rcases ih (if f b < f v then v else b) with ⟨h1, h2⟩
    have hb : f b ≤ f (if f b < f v then v else b) := by
      by_cases hc : f b < f v
      · rw [if_pos hc]; exact Nat.le_of_lt hc
      · rw [if_neg hc]
    have hv : f v ≤ f (if f b < f v then v else b) := by
      by_cases hc : f b < f v
      · rw [if_pos hc]
      · rw [if_neg hc]; exact Nat.le_of_not_lt hc
    refine ⟨Nat.le_trans hb h1, fun w hw => ?_⟩
    rcases List.mem_cons.mp hw with rfl | hw
    · exact Nat.le_trans hv h1
    · exact h2 w hw

theorem pyMax_mem (f : α → Nat) {l : List α} {m : α} (h : pyMax f l = some m) :
    m ∈ l := by
  cases l with
  | nil => simp [pyMax] at h
  | cons v vs =>
    simp only [pyMax, Option.some.injEq] at h
    rcases pyMaxGo_mem f vs v with h' | h'
    · rw [← h, h']; exact List.mem_cons_self _ _
    · rw [← h]; exact List.mem_cons_of_mem _ h'

theorem pyMax_is_max (f : α → Nat) {l : List α} {m : α} (h : pyMax f l = some m) :
    ∀ v ∈ l, f v ≤ f m := by
  cases l with
  | nil => simp [pyMax] at h
  | cons v vs =>
    simp only [pyMax, Option.some.injEq] at h
    intro w hw
    rcases List.mem_cons.mp hw with rfl | hw
    · rw [← h]; exact (pyMaxGo_le f vs w).1
    · rw [← h]; exact (pyMaxGo_le f vs v).2 w hw

theorem pyMax_isSome (f : α → Nat) {l : List α} (h : l ≠ []) :
    (pyMax f l).isSome := by
  cases l with
  | nil => exact absurd rfl h
  | cons v vs => simp [pyMax]

theorem ascendingVals_eq_of_perm {xs ys : List Int} (h : List.Perm xs ys) :
    ascendingVals xs = ascendingVals ys := by
  have hp : List.Perm (ascendingVals xs) (ascendingVals ys) :=
    ((List.perm_insertionSort _ _).trans (pyDedup_perm_of_perm h)).trans
      (List.perm_insertionSort _ _).symm
  exact List.eq_of_perm_of_sorted hp
    (List.sorted_insertionSort _ _) (List.sorted_insertionSort _ _)

theorem pyMode_eq_of_perm {xs ys : List Int} (h : List.Perm xs ys) :
    pyMode xs = pyMode ys := by
  unfold pyMode
  rw [ascendingVals_eq_of_perm h]
  have hcount : (fun v => xs.count v) = fun v => ys.count v := by
    funext v; exact h.count_eq v
  rw [hcount]

theorem mem_ascendingVals {a : Int} {xs : List Int} :
    a ∈ ascendingVals xs ↔ a ∈ xs := by
  unfold ascendingVals
  rw [List.mem_insertionSort, mem_pyDedup]

theorem pyMode_mem {xs : List Int} {m : Int} (h : pyMode xs = some m) : m ∈ xs :=
  mem_ascendingVals.mp (pyMax_mem _ h)

theorem pyMode_is_mode {xs : List Int} {m : Int} (h : pyMode xs = some m) :
    ∀ v ∈ xs, xs.count v ≤ xs.count m := by
  intro v hv
  exact pyMax_is_max _ h v (mem_ascendingVals.mpr hv)

theorem pyMode_isSome {xs : List Int} (h : xs ≠ []) : (pyMode xs).isSome := by
  apply pyMax_isSome
  intro hc
  apply h
  cases xs with
  | nil => rfl
  | cons x xs =>
    exfalso
    have : x ∈ ascendingVals (x :: xs) := mem_ascendingVals.mpr (List.mem_cons_self _ _)
    rw [hc] at this
    exact List.not_mem_nil _ this

end PyModel

namespace GroupPrefs

open PyModel

theorem aggregate_extracted_queries (g : GroupPreferences) :
    (aggregateMemberPreferences g).extracted_queries =
      pyDedup (allQueries g.member_contributions) := rfl

theorem aggregate_extracted_categories (g : GroupPreferences) :
    (aggregateMemberPreferences g).extracted_categories =
      pyDedup (allCategories g.member_contributions) := rfl

theorem aggregate_min_price (g : GroupPreferences) :
    (aggregateMemberPreferences g).min_price =
      pyMode (truthyMins (allPriceRanges g.member_contributions)) := rfl

theorem aggregate_max_price (g : GroupPreferences) :
    (aggregateMemberPreferences g).max_price =
      pyMode (truthyMaxs (allPriceRanges g.member_contributions)) := rfl

theorem aggregate_query_frequency (g : GroupPreferences) :
    (aggregateMemberPreferences g).query_frequency =
      fun q => (allQueries g.member_contributions).count q := rfl

theorem aggregate_category_frequency (g : GroupPreferences) :
    (aggregateMemberPreferences g).category_frequency =
      fun c => (allCategories g.member_contributions).count c := rfl

theorem aggregate_param_count (g : GroupPreferences) :
    (aggregateMemberPreferences g).foursquare_param_count =
      (if pyDedup (allQueries g.member_contributions) ≠ [] then 1 else 0) +
      (if pyDedup (allCategories g.member_contributions) ≠ [] then 1 else 0) +
      (if intTruthy (pyMode (truthyMins (allPriceRanges g.member_contributions)))
        then 1 else 0) +
      (if intTruthy (pyMode (truthyMaxs (allPriceRanges g.member_contributions)))
        then 1 else 0) := rfl

theorem aggregate_member_contributions (g : GroupPreferences) :
    (aggregateMemberPreferences g).member_contributions =
      g.member_contributions := rfl

theorem aggregate_member_count (g : GroupPreferences) :
    (aggregateMemberPreferences g).member_count = g.member_count := rfl

/-- Two permuted lists have the same `toFinset`. -/
theorem toFinset_eq_of_perm {l₁ l₂ : List String} (h : List.Perm l₁ l₂) :
    l₁.toFinset = l₂.toFinset := by
  ext a
  simp [List.mem_toFinset, h.mem_iff]

theorem perm_nil_iff_eq_nil {l₁ l₂ : List String} (h : List.Perm l₁ l₂) :
    l₁ = [] ↔ l₂ = [] := by
  constructor
  · intro hn; subst hn; exact h.symm.eq_nil
  · intro hn; subst hn; exact h.eq_nil

/-- Permuting the contribution map leaves every aggregated field
unchanged (the two set-valued fields up to set equality). -/
theorem aggEquiv_of_perm_contribs (g₁ g₂ : GroupPreferences)
    (h : List.Perm g₁.member_contributions g₂.member_contributions) :
    aggEquiv (aggregateMemberPreferences g₁) (aggregateMemberPreferences g₂) := by
  have hq : List.Perm (allQueries g₁.member_contributions)
      (allQueries g₂.member_contributions) := h.flatMap_right _
  have hc : List.Perm (allCategories g₁.member_contributions)
      (allCategories g₂.member_contributions) := h.flatMap_right _
  have hpr : List.Perm (allPriceRanges g₁.member_contributions)
      (allPriceRanges g₂.member_contributions) := h.flatMap_right _
  have hqd := pyDedup_perm_of_perm hq
  have hcd := pyDedup_perm_of_perm hc
  have hmin : pyMode (truthyMins (allPriceRanges g₁.member_contributions)) =
      pyMode (truthyMins (allPriceRanges g₂.member_contributions)) :=
    pyMode_eq_of_perm (hpr.filterMap _)
  have hmax : pyMode (truthyMaxs (allPriceRanges g₁.member_contributions)) =
      pyMode (truthyMaxs (allPriceRanges g₂.member_contributions)) :=
    pyMode_eq_of_perm (hpr.filterMap _)
  refine ⟨?_, ?_, ?_, ?_, ?_, ?_, ?_⟩
  · rw [aggregate_extracted_queries, aggregate_extracted_queries]
    exact toFinset_eq_of_perm hqd
  · rw [aggregate_extracted_categories, aggregate_extracted_categories]
    exact toFinset_eq_of_perm hcd
  · rw [aggregate_min_price, aggregate_min_price]; exact hmin
  · rw [aggregate_max_price, aggregate_max_price]; exact hmax
  · rw [aggregate_query_frequency, aggregate_query_frequency]
    funext q; exact hq.count_eq q
  · rw [aggregate_category_frequency, aggregate_category_frequency]
    funext c; exact hc.count_eq c
  · rw [aggregate_param_count, aggregate_param_count]
    have e1 : (pyDedup (allQueries g₁.member_contributions) = []) =
        (pyDedup (allQueries g₂.member_contributions) = []) :=
      propext (perm_nil_iff_eq_nil hqd)
    have e2 : (pyDedup (allCategories g₁.member_contributions) = []) =
        (pyDedup (allCategories g₂.member_contributions) = []) :=
      propext (perm_nil_iff_eq_nil hcd)
    rw [hmin, hmax]
    congr 3
    · simp only [ne_eq, e1]
    · simp only [ne_eq, e2]

theorem aggEquiv_refl (g : GroupPreferences) : aggEquiv g g :=
  ⟨rfl, rfl, rfl, rfl, rfl, rfl, rfl⟩

theorem aggEquiv_trans {g₁ g₂ g₃ : GroupPreferences}
    (h₁ : aggEquiv g₁ g₂) (h₂ : aggEquiv g₂ g₃) : aggEquiv g₁ g₃ := by
  obtain ⟨a1, a2, a3, a4, a5, a6, a7⟩ := h₁
  obtain ⟨b1, b2, b3, b4, b5, b6, b7⟩ := h₂
  exact ⟨a1.trans b1, a2.trans b2, a3.trans b3, a4.trans b4, a5.trans b5,
    a6.trans b6, a7.trans b7⟩

/-- Removing a key then appending a pair with that key permutes the dict
back when the pair was already present (keys unique). -/
theorem dictRemove_append_perm :
    ∀ {c : Contribs} {uid : String} {p : MemberPrefs},
      keysNodup c → (uid, p) ∈ c →
      List.Perm (dictRemove c uid ++ [(uid, p)]) c := by
  intro c
  induction c with
  | nil => intro uid p _ hmem; exact absurd hmem (List.not_mem_nil _)
  | cons x rest ih =>
    intro uid p hn hmem
    have hn' : keysNodup rest := (List.nodup_cons.mp hn).2
    have hx : x.1 ∉ rest.map Prod.fst := (List.nodup_cons.mp hn).1
    rcases List.mem_cons.mp hmem with rfl | hmem'
    · have hrest : dictRemove rest uid = rest := by
        apply List.filter_eq_self.mpr
        intro a ha
        simp only [ne_eq, decide_eq_true_eq]
        intro hak
        have hmm : a.1 ∈ rest.map Prod.fst := List.mem_map_of_mem Prod.fst ha
        rw [hak] at hmm
        exact hx hmm
      have hdrop : dictRemove ((uid, p) :: rest) uid = dictRemove rest uid := by
        simp [dictRemove, List.filter_cons]
      rw [hdrop, hrest]
      exact List.perm_append_singleton _ _
    · have hxk : x.1 ≠ uid := by
        intro hk
        have hmm : (uid, p).1 ∈ rest.map Prod.fst :=
          List.mem_map_of_mem Prod.fst hmem'
        rw [← hk] at hmm
        exact hx hmm
      have hkeep : dictRemove (x :: rest) uid = x :: dictRemove rest uid := by
        simp [dictRemove, List.filter_cons, hxk]
      rw [hkeep, List.cons_append]
      exact (ih hn' hmem').cons x

theorem dictHas_dictRemove (c : Contribs) (uid : String) :
    dictHas (dictRemove c uid) uid = false := by
  simp only [dictHas, dictRemove, List.any_eq_false, decide_eq_true_eq]
  intro p hp
  have := List.of_mem_filter hp
  simp only [ne_eq, decide_eq_true_eq] at this
  exact this

theorem dictSet_of_not_has {c : Contribs} {uid : String} (p : MemberPrefs)
    (h : dictHas c uid = false) : dictSet c uid p = c ++ [(uid, p)] := by
  simp only [dictSet, dictHas] at h ⊢
  rw [h]
  simp

theorem dictHas_of_mem {c : Contribs} {uid : String} {p : MemberPrefs}
    (h : (uid, p) ∈ c) : dictHas c uid = true := by
  simp only [dictHas, List.any_eq_true, decide_eq_true_eq]
  exact ⟨(uid, p), h, rfl⟩

theorem dictSet_length_of_has {c : Contribs} {uid : String}
    (p : MemberPrefs) (h : dictHas c uid = true) :
    (dictSet c uid p).length = c.length := by
  simp only [dictSet, dictHas] at h ⊢
  rw [h]
  simp

/-- C1: the aggregated fields of a GroupProfile are a pure function of the
current member-contribution map — contribution maps holding the same
member contributions in any insertion order aggregate to identical
aggregated fields (the two Python-set-ordered list fields compared as the
sets they store), and removing a member then re-adding the identical
preference record restores the prior aggregated state exactly. -/
theorem c1_aggregation_pure_function_of_contributions :
    (∀ g₁ g₂ : GroupPreferences,
       List.Perm g₁.member_contributions g₂.member_contributions →
       aggEquiv (aggregateMemberPreferences g₁) (aggregateMemberPreferences g₂)) ∧
    (∀ (g : GroupPreferences) (uid : String) (p : MemberPrefs),
       keysNodup g.member_contributions →
       (uid, p) ∈ g.member_contributions →
       aggregateMemberPreferences g = g →
       aggEquiv (addMemberPreferences (removeMemberPreferences g uid) uid p) g) := by
  constructor
  · exact aggEquiv_of_perm_contribs
  · intro g uid p hn hmem hg
    have hhas : dictHas g.member_contributions uid = true := dictHas_of_mem hmem
    have hrm : (removeMemberPreferences g uid).member_contributions =
        dictRemove g.member_contributions uid := by
      simp only [removeMemberPreferences, hhas, if_true]
      exact aggregate_member_contributions _
    have hset : dictSet (removeMemberPreferences g uid).member_contributions uid p =
        dictRemove g.member_contributions uid ++ [(uid, p)] := by
      rw [hrm]
      exact dictSet_of_not_has p (dictHas_dictRemove _ _)
    have hperm : List.Perm
        (dictSet (removeMemberPreferences g uid).member_contributions uid p)
        g.member_contributions := by
      rw [hset]
      exact dictRemove_append_perm hn hmem
    have h1 : aggEquiv
        (addMemberPreferences (removeMemberPreferences g uid) uid p)
        (aggregateMemberPreferences g) := by
      unfold addMemberPreferences
      exact aggEquiv_of_perm_contribs _ g hperm
    rw [hg] at h1
    exact h1

/-- Witness for C1: a concrete two-member profile; removing `u1` and
re-adding the identical record restores the aggregated state. -/
theorem c1_witness :
    keysNodup (aggregateMemberPreferences exampleThreeBudgets).member_contributions ∧
    ("m1", budgetMember "budget") ∈
      (aggregateMemberPreferences exampleThreeBudgets).member_contributions ∧
    aggregateMemberPreferences (aggregateMemberPreferences exampleThreeBudgets) =
      aggregateMemberPreferences exampleThreeBudgets ∧
    aggEquiv
      (addMemberPreferences
        (removeMemberPreferences (aggregateMemberPreferences exampleThreeBudgets) "m1")
        "m1" (budgetMember "budget"))
      (aggregateMemberPreferences exampleThreeBudgets) :=
  ⟨by decide, by decide, rfl,
    c1_aggregation_pure_function_of_contributions.2
      (aggregateMemberPreferences exampleThreeBudgets) "m1" (budgetMember "budget")
      (by decide) (by decide) rfl⟩

/-- C4: with budget tiers mapped budget→(1,2), moderate→(2,3),
upscale→(3,4), the aggregation sets the consensus minimum to a statistical
mode of the collected member minimums and the consensus maximum to a mode
of the collected maximums; tiers budget, moderate, moderate yield the
consensus price range (2, 3). -/
theorem c4_price_consensus_is_mode :
    (∀ (g : GroupPreferences) (m : Int),
       (aggregateMemberPreferences g).min_price = some m →
       m ∈ truthyMins (allPriceRanges g.member_contributions) ∧
       ∀ v ∈ truthyMins (allPriceRanges g.member_contributions),
         (truthyMins (allPriceRanges g.member_contributions)).count v ≤
           (truthyMins (allPriceRanges g.member_contributions)).count m) ∧
    (∀ (g : GroupPreferences) (m : Int),
       (aggregateMemberPreferences g).max_price = some m →
       m ∈ truthyMaxs (allPriceRanges g.member_contributions) ∧
       ∀ v ∈ truthyMaxs (allPriceRanges g.member_contributions),
         (truthyMaxs (allPriceRanges g.member_contributions)).count v ≤
           (truthyMaxs (allPriceRanges g.member_contributions)).count m) ∧
    ((aggregateMemberPreferences exampleThreeBudgets).min_price = some 2 ∧
     (aggregateMemberPreferences exampleThreeBudgets).max_price = some 3) := by
  refine ⟨?_, ?_, by decide, by decide⟩
  · intro g m hm
    rw [aggregate_min_price] at hm
    exact ⟨pyMode_mem hm, pyMode_is_mode hm⟩
  · intro g m hm
    rw [aggregate_max_price] at hm
    exact ⟨pyMode_mem hm, pyMode_is_mode hm⟩

/-- Witness for C4: the mode property applied to the three-member
example. -/
theorem c4_witness :
    (aggregateMemberPreferences exampleThreeBudgets).min_price = some 2 ∧
    (2 ∈ truthyMins (allPriceRanges exampleThreeBudgets.member_contributions) ∧
     ∀ v ∈ truthyMins (allPriceRanges exampleThreeBudgets.member_contributions),
       (truthyMins (allPriceRanges exampleThreeBudgets.member_contributions)).count v ≤
         (truthyMins (allPriceRanges exampleThreeBudgets.member_contributions)).count 2) :=
  ⟨by decide, c4_price_consensus_is_mode.1 exampleThreeBudgets 2 (by decide)⟩

/-- C8 counterexample: with contributed queries "a", "b", "a" (in that
order) the most recently added query term is "a", but the projected query
is "b", the last element of the stored deduplication. -/
theorem c8_counterexample :
    (getAggregatedFoursquareParams
        (aggregateMemberPreferences repeatQueryGroup)).query = some "b" ∧
    mostRecentQueryTerm repeatQueryGroup = some "a" ∧
    (some "b" : Option String) ≠ some "a" := by
  refine ⟨by decide, by decide, by decide⟩

/-- C8 amended: `get_aggregated_foursquare_params` returns at most 5
category ids, and its query is the last element of the stored
deduplicated query list — the most recently first-contributed distinct
term under the realised set order, not necessarily the most recently
added term. -/
theorem c8_params_shape :
    (∀ g : GroupPreferences,
       (getAggregatedFoursquareParams g).fsq_category_ids.length ≤ 5) ∧
    (∀ g : GroupPreferences,
       (getAggregatedFoursquareParams (aggregateMemberPreferences g)).query =
         (pyDedup (allQueries g.member_contributions)).getLast?) := by
  constructor
  · intro g
    simp only [getAggregatedFoursquareParams]
    by_cases h : g.extracted_categories = []
    · simp [h]
    · simp only [ne_eq, h, not_false_eq_true, if_true]
      exact List.length_take_le 5 _
  · intro g
    rfl

/-- C10 counterexample: an `api_ready` message from a sender with no prior
contribution adds a contribution entry but leaves `member_count` at its
old value. -/
theorem c10_counterexample :
    (updateFromLlmMessage baseGroup "u1" arReady).member_count ≠
      (updateFromLlmMessage baseGroup "u1" arReady).member_contributions.length := by
  decide

/-- C10 amended: `add_member_preferences` always leaves `member_count`
equal to the number of contribution entries; `remove_member_preferences`
preserves that equality; `update_from_llm_message` preserves it only when
the sender already has an entry or the result is not `api_ready` (a fresh
sender's entry is added without refreshing the count). -/
theorem c10_member_count_tracks_contributions :
    (∀ (g : GroupPreferences) (uid : String) (p : MemberPrefs),
       (addMemberPreferences g uid p).member_count =
         (addMemberPreferences g uid p).member_contributions.length) ∧
    (∀ (g : GroupPreferences) (uid : String),
       g.member_count = g.member_contributions.length →
       (removeMemberPreferences g uid).member_count =
         (removeMemberPreferences g uid).member_contributions.length) ∧
    (∀ (g : GroupPreferences) (uid : String) (ar : AnalysisResult),
       g.member_count = g.member_contributions.length →
       (dictHas g.member_contributions uid = true ∨ ar.api_ready = false) →
       (updateFromLlmMessage g uid ar).member_count =
         (updateFromLlmMessage g uid ar).member_contributions.length) := by
  refine ⟨fun g uid p => rfl, ?_, ?_⟩
  · intro g uid h
    by_cases hc : dictHas g.member_contributions uid = true
    · simp only [removeMemberPreferences, hc, if_true]
      rw [aggregate_member_count, aggregate_member_contributions]
    · simp only [removeMemberPreferences, hc, if_false]
      exact h
  · intro g uid ar h hcase
    rcases hcase with hc | hc
    · by_cases hr : ar.api_ready = true
      · simp only [updateFromLlmMessage, hr, Bool.not_true, Bool.false_eq_true,
          if_false]
        rw [aggregate_member_count, aggregate_member_contributions]
        rw [dictSet_length_of_has _ hc]
        exact h
      · have hr' : ar.api_ready = false := Bool.eq_false_iff.mpr hr
        simp only [updateFromLlmMessage, hr', Bool.not_false, if_true]
        exact h
    · simp only [updateFromLlmMessage, hc, Bool.not_false, if_true]
      exact h

/-- Witness for C10: the remove and update branches applied to the empty
profile. -/
theorem c10_witness :
    baseGroup.member_count = baseGroup.member_contributions.length ∧
    (removeMemberPreferences baseGroup "u").member_count =
      (removeMemberPreferences baseGroup "u").member_contributions.length ∧
    (updateFromLlmMessage baseGroup "u" { arReady with api_ready := false }).member_count =
      (updateFromLlmMessage baseGroup "u"
        { arReady with api_ready := false }).member_contributions.length :=
  ⟨by decide,
    c10_member_count_tracks_contributions.2.1 baseGroup "u" (by decide),
    c10_member_count_tracks_contributions.2.2 baseGroup "u"
      { arReady with api_ready := false } (by decide) (Or.inr rfl)⟩

end GroupPrefs

namespace Analyzer

open PyModel

theorem foldl_bind_error (stages : List Stage) (e : String) :
    stages.foldl (fun acc st => acc.bind st) (Except.error e) =
      Except.error e := by
  induction stages with
  | nil => rfl
  | cons st rest ih =>
    simp only [List.foldl_cons]
    exact ih

/-- C6: if any stage of the pipeline raises, `analyze_message` does not
propagate the fault: the caller receives the fallback record, whose
overall relevance is 0, whose update flag is false, and which carries the
error description. -/
theorem c6_stage_failure_yields_fallback :
    ∀ (pre post : List Stage) (st : Stage) (msg : List String)
      (ctx : UserContext) (e : String) (s : PipelineState),
      runPipeline pre (initState msg ctx) = Except.ok s →
      st s = Except.error e →
      analyzeMessageWith (pre ++ st :: post) msg ctx = fallbackRecord e ctx ∧
      (analyzeMessageWith (pre ++ st :: post) msg ctx).overall_relevance = 0 ∧
      (analyzeMessageWith (pre ++ st :: post) msg ctx).should_update_preferences
        = false ∧
      (analyzeMessageWith (pre ++ st :: post) msg ctx).error = some e := by
  intro pre post st msg ctx e s hpre hst
  have hrun : runPipeline (pre ++ st :: post) (initState msg ctx) =
      Except.error e := by
    unfold runPipeline at hpre ⊢
    rw [List.foldl_append, hpre]
    simp only [List.foldl_cons]
    have hbind : (Except.ok s : Except String PipelineState).bind st = st s := rfl
    rw [hbind, hst]
    exact foldl_bind_error post e
  unfold analyzeMessageWith
  rw [hrun]
  exact ⟨rfl, rfl, rfl, rfl⟩

/-- Witness for C6: a pipeline whose single stage raises. -/
theorem c6_witness :
    runPipeline [] (initState [] ctx0) = Except.ok (initState [] ctx0) ∧
    failingStage (initState [] ctx0) = Except.error "analysis failure" ∧
    (analyzeMessageWith [failingStage] [] ctx0 =
        fallbackRecord "analysis failure" ctx0 ∧
      (analyzeMessageWith [failingStage] [] ctx0).overall_relevance = 0 ∧
      (analyzeMessageWith [failingStage] [] ctx0).should_update_preferences
        = false ∧
      (analyzeMessageWith [failingStage] [] ctx0).error =
        some "analysis failure") :=
  ⟨rfl, rfl,
    c6_stage_failure_yields_fallback [] [] failingStage [] ctx0
      "analysis failure" (initState [] ctx0) rfl rfl⟩

/-- C3 counterexample: the message "hello spicy" synthesizes overall
relevance 7/15 (≤ 0.5), yet its update flag is set — the code's
threshold is 0.4, not 0.5. -/
theorem c3_counterexample :
    (analyzeMessage helloSpicy ctx0).should_update_preferences = true ∧
    ¬((1 : ℚ)/2 < (analyzeMessage helloSpicy ctx0).overall_relevance) := by
  have hmin : min (1 : ℚ) (((1 : ℕ) : ℚ)/4) = 1/4 := by
    rw [min_def]
    norm_num
  have e1 : (analyzeMessage helloSpicy ctx0).overall_relevance =
      (min 1 (((1 : ℕ) : ℚ)/4) + (min 1 (((1 : ℕ) : ℚ)/4) + (9/10 + 0))) /
        ((3 : ℕ) : ℚ) := rfl
  have e2 : (analyzeMessage helloSpicy ctx0).should_update_preferences =
      decide ((2 : ℚ)/5 <
        (min 1 (((1 : ℕ) : ℚ)/4) + (min 1 (((1 : ℕ) : ℚ)/4) + (9/10 + 0))) /
          ((3 : ℕ) : ℚ)) := rfl
  constructor
  · rw [e2, decide_eq_true_eq]
    simp only [hmin]
    norm_num
  · rw [e1]
    simp only [hmin]
    norm_num

/-- C3 amended: the synthesized update flag is set exactly when the
computed overall relevance strictly exceeds 0.4. -/
theorem c3_update_flag_threshold :
    ∀ (msg : List String) (ctx : UserContext),
      (analyzeMessage msg ctx).should_update_preferences = true ↔
        (2 : ℚ)/5 < (analyzeMessage msg ctx).overall_relevance := by
  intro msg ctx
  constructor
  · intro h
    exact of_decide_eq_true h
  · intro h
    exact decide_eq_true h

/-- C5 counterexample: on the text "pizza" the extractor's relevance
score is 1/2 = min(1, parameters_extracted/4), while the spec formula
min(1, keywords_found / max(1, word_count) * 5) evaluates to 1. -/
theorem c5_counterexample :
    (fsqExtract ["pizza"]).relevance_score = 1/2 ∧
    specRelevanceFormula (fsqExtract ["pizza"]).raw_query_matches.length
      (fsqExtract ["pizza"]).message_length = 1 ∧
    ((1 : ℚ)/2) ≠ 1 := by
  have hl : (fsqExtract ["pizza"]).raw_query_matches.length = 1 := by decide
  have hm : (fsqExtract ["pizza"]).message_length = 1 := by decide
  have e1 : (fsqExtract ["pizza"]).relevance_score =
      min 1 (((2 : ℕ) : ℚ)/4) := rfl
  refine ⟨?_, ?_, by norm_num⟩
  · rw [e1, min_def]
    norm_num
  · rw [hl, hm, specRelevanceFormula, min_def, max_def]
    norm_num

/-- C5 amended: for every input the extractor's relevance score equals
min(1, parameters_extracted / 4), where parameters_extracted is the
truthy-parameter count of the extracted Foursquare bag; the word count is
computed but does not enter the score. -/
theorem c5_relevance_is_param_count :
    ∀ words : List String,
      (fsqExtract words).relevance_score =
        min 1 (((fsqExtract words).parameters_extracted : ℚ) / 4) ∧
      (fsqExtract words).parameters_extracted =
        paramTruthyCount (fsqExtract words).foursquare_params := by
  intro words
  exact ⟨rfl, rfl⟩

end Analyzer

namespace Keywords

open PyModel

theorem appendIfAbsent_foldl_decomposes :
    ∀ (ws acc : List String), ∃ app : List String,
      ws.foldl (fun a w => if w ∈ a then a else a ++ [w]) acc = acc ++ app ∧
      (∀ w ∈ app, w ∈ ws ∧ w ∉ acc) ∧ app.Nodup := by
  intro ws
  induction ws with
  | nil =>
    intro acc
    exact ⟨[], by simp, by simp, List.nodup_nil⟩
  | cons w ws ih =>
    intro acc
    by_cases hw : w ∈ acc
    · obtain ⟨app, h1, h2, h3⟩ := ih acc
      refine ⟨app, ?_, ?_, h3⟩
      · simpa [List.foldl_cons, if_pos hw] using h1
      · intro x hx
        exact ⟨List.mem_cons_of_mem _ (h2 x hx).1, (h2 x hx).2⟩
    · obtain ⟨app, h1, h2, h3⟩ := ih (acc ++ [w])
      refine ⟨w :: app, ?_, ?_, ?_⟩
      · rw [List.foldl_cons, if_neg hw] at *
        rw [h1]
        simp
      · intro x hx
        rcases List.mem_cons.mp hx with rfl | hx
        · exact ⟨List.mem_cons_self _ _, hw⟩
        · refine ⟨List.mem_cons_of_mem _ (h2 x hx).1, fun hc => ?_⟩
          exact (h2 x hx).2 (List.mem_append_left _ hc)
      · refine List.nodup_cons.mpr ⟨fun hc => ?_, h3⟩
        exact (h2 w hc).2 (List.mem_append_right _ (List.mem_singleton_self _))

theorem mem_dictSet {d : KeywordMap} {k : String} {v : List String}
    {p : String × List String} (h : p ∈ dictSet d k v) :
    p = (k, v) ∨ p ∈ d := by
  by_cases hc : d.any (fun q => q.1 = k)
  · rw [dictSet, if_pos hc] at h
    obtain ⟨q, hq, hqe⟩ := List.mem_map.mp h
    by_cases hk : q.1 = k
    · rw [if_pos hk] at hqe
      exact Or.inl hqe.symm
    · rw [if_neg hk] at hqe
      exact Or.inr (hqe ▸ hq)
  · rw [dictSet, if_neg hc] at h
    rcases List.mem_append.mp h with h | h
    · exact Or.inr h
    · exact Or.inl (List.mem_singleton.mp h)

/-- C9: merging newly extracted keywords into the per-category
learned-keyword map appends, after the existing entries in their order,
only keywords not already present, then keeps the most recent 20; hence
a map all of whose category lists hold at most 20 entries still does
after every merge. -/
theorem c9_keyword_merge_appends_and_caps :
    (∀ existing ws : List String, ∃ appended : List String,
       mergeCategory existing ws =
         (existing ++ appended).drop ((existing ++ appended).length - 20) ∧
       (∀ w ∈ appended, w ∈ ws ∧ w ∉ existing) ∧ appended.Nodup) ∧
    (∀ existing ws : List String, (mergeCategory existing ws).length ≤ 20) ∧
    (∀ (km : KeywordMap) (extracted : List (String × List String)),
       (∀ p ∈ km, p.2.length ≤ 20) →
       ∀ p ∈ updateKeywords km extracted, p.2.length ≤ 20) := by
  have hcap : ∀ existing ws : List String,
      (mergeCategory existing ws).length ≤ 20 := by
    intro existing ws
    unfold mergeCategory
    rw [List.length_drop]
    omega
  refine ⟨?_, hcap, ?_⟩
  · intro existing ws
    obtain ⟨app, h1, h2, h3⟩ := appendIfAbsent_foldl_decomposes ws existing
    exact ⟨app, by rw [mergeCategory, h1], h2, h3⟩
  · intro km extracted
    induction extracted generalizing km with
    | nil =>
      intro h p hp
      exact h p hp
    | cons e rest ih =>
      intro h p hp
      rw [updateKeywords, List.foldl_cons] at hp
      by_cases he : e.2 ≠ []
      · rw [if_pos he] at hp
        refine ih _ ?_ p hp
        intro q hq
        rcases mem_dictSet hq with rfl | hq
        · exact hcap _ _
        · exact h q hq
      · rw [if_neg he] at hp
        exact ih km h p hp

/-- Witness for C9: a one-category map merged with one new keyword. -/
theorem c9_witness :
    (∀ p ∈ ([("food", ["pizza"])] : KeywordMap), p.2.length ≤ 20) ∧
    (∀ p ∈ updateKeywords [("food", ["pizza"])] [("food", ["sushi"])],
       p.2.length ≤ 20) :=
  ⟨by decide,
    c9_keyword_merge_appends_and_caps.2.2
      [("food", ["pizza"])] [("food", ["sushi"])] (by decide)⟩

end Keywords

namespace RecEngine

open PyModel

/-- C2: the composite score is clamped into [0, 1] for every restaurant
(including one with all optional fields absent), context, group
preferences and member-profile list. -/
theorem c2_comprehensive_score_bounded :
    ∀ (r : Restaurant) (ctx : RecommendationContext) (gp : GroupScoringPrefs)
      (profiles : List UserPreferenceProfile) (fallbackDistance : ℚ) (now : Int),
      0 ≤ calculateComprehensiveScore r ctx gp profiles fallbackDistance now ∧
      calculateComprehensiveScore r ctx gp profiles fallbackDistance now ≤ 1 := by
  intro r ctx gp profiles fallbackDistance now
  unfold calculateComprehensiveScore
  constructor
  · exact le_min (by norm_num) (le_max_left 0 _)
  · exact min_le_left _ _

theorem firstPassGo_cons (r : Restaurant) (s : ℚ) (rest acc : List Scored)
    (used : List (List String × Int)) :
    firstPassGo ((r, s) :: rest) acc used =
      if comboKey r ∉ used ∨ acc.length < 5 then
        (if 15 ≤ (acc ++ [(r, s)]).length then acc ++ [(r, s)]
         else firstPassGo rest (acc ++ [(r, s)]) (comboKey r :: used))
      else firstPassGo rest acc used := rfl

theorem secondPassGo_cons (r : Restaurant) (s : ℚ) (rest : List Scored)
    (ids : List String) (slots : Nat) :
    secondPassGo ((r, s) :: rest) ids slots =
      if r.fsq_id ∉ ids ∧ 0 < slots then
        (r, s) :: secondPassGo rest ids (slots - 1)
      else secondPassGo rest ids slots := rfl

theorem firstPassGo_decompose :
    ∀ (l acc : List Scored) (used : List (List String × Int)),
      ∃ tail : List Scored,
        firstPassGo l acc used = acc ++ tail ∧ tail.Sublist l := by
  intro l
  induction l with
  | nil =>
    intro acc used
    exact ⟨[], by simp [firstPassGo], List.nil_sublist _⟩
  | cons x rest ih =>
    intro acc used
    obtain ⟨r, s⟩ := x
    rw [firstPassGo_cons]
    by_cases hc : comboKey r ∉ used ∨ acc.length < 5
    · rw [if_pos hc]
      by_cases hb : 15 ≤ (acc ++ [(r, s)]).length
      · rw [if_pos hb]
        exact ⟨[(r, s)], rfl, (List.nil_sublist rest).cons₂ (r, s)⟩
      · rw [if_neg hb]
        obtain ⟨tail, h1, h2⟩ := ih (acc ++ [(r, s)]) (comboKey r :: used)
        refine ⟨(r, s) :: tail, ?_, h2.cons₂ (r, s)⟩
        rw [h1, List.append_assoc]
        rfl
    · rw [if_neg hc]
      obtain ⟨tail, h1, h2⟩ := ih acc used
      exact ⟨tail, h1, h2.cons _⟩

theorem firstPassGo_length_le :
    ∀ (l acc : List Scored) (used : List (List String × Int)),
      acc.length ≤ 14 → (firstPassGo l acc used).length ≤ 15 := by
  intro l
  induction l with
  | nil =>
    intro acc used h
    simpa [firstPassGo] using Nat.le_trans h (by norm_num)
  | cons x rest ih =>
    intro acc used h
    obtain ⟨r, s⟩ := x
    rw [firstPassGo_cons]
    by_cases hc : comboKey r ∉ used ∨ acc.length < 5
    · rw [if_pos hc]
      by_cases hb : 15 ≤ (acc ++ [(r, s)]).length
      · rw [if_pos hb]
        simp only [List.length_append, List.length_cons, List.length_nil]
        omega
      · rw [if_neg hb]
        apply ih
        simp only [List.length_append, List.length_cons, List.length_nil] at hb ⊢
        omega
    · rw [if_neg hc]
      exact ih acc used h

theorem secondPassGo_length_le :
    ∀ (l : List Scored) (ids : List String) (slots : Nat),
      (secondPassGo l ids slots).length ≤ slots := by
  intro l
  induction l with
  | nil =>
    intro ids slots
    simp [secondPassGo]
  | cons x rest ih =>
    intro ids slots
    obtain ⟨r, s⟩ := x
    rw [secondPassGo_cons]
    by_cases hc : r.fsq_id ∉ ids ∧ 0 < slots
    · rw [if_pos hc]
      have := ih ids (slots - 1)
      simp only [List.length_cons]
      omega
    · rw [if_neg hc]
      exact ih ids slots

theorem secondPassGo_sublist :
    ∀ (l : List Scored) (ids : List String) (slots : Nat),
      (secondPassGo l ids slots).Sublist l := by
  intro l
  induction l with
  | nil =>
    intro ids slots
    simp [secondPassGo]
  | cons x rest ih =>
    intro ids slots
    obtain ⟨r, s⟩ := x
    rw [secondPassGo_cons]
    by_cases hc : r.fsq_id ∉ ids ∧ 0 < slots
    · rw [if_pos hc]
      exact (ih ids (slots - 1)).cons₂ (r, s)
    · rw [if_neg hc]
      exact (ih ids slots).cons _

theorem secondPassGo_not_mem_ids :
    ∀ (l : List Scored) (ids : List String) (slots : Nat) (p : Scored),
      p ∈ secondPassGo l ids slots → p.1.fsq_id ∉ ids := by
  intro l
  induction l with
  | nil =>
    intro ids slots p hp
    simp [secondPassGo] at hp
  | cons x rest ih =>
    intro ids slots p hp
    obtain ⟨r, s⟩ := x
    rw [secondPassGo_cons] at hp
    by_cases hc : r.fsq_id ∉ ids ∧ 0 < slots
    · rw [if_pos hc] at hp
      rcases List.mem_cons.mp hp with rfl | hp
      · exact hc.1
      · exact ih ids (slots - 1) p hp
    · rw [if_neg hc] at hp
      exact ih ids slots p hp

theorem length_le_filter_of_sublist_of_all {l₁ l₂ : List Scored}
    (q : Scored → Bool) (hs : l₁.Sublist l₂)
    (hall : ∀ p ∈ l₁, q p = true) :
    l₁.length ≤ (l₂.filter q).length := by
  have hself : l₁.filter q = l₁ := List.filter_eq_self.mpr hall
  have := (hs.filter q).length_le
  rw [hself] at this
  exact this

theorem filter_length_split (l : List Scored) (q : Scored → Bool) :
    (l.filter q).length + (l.filter (fun a => !q a)).length = l.length := by
  induction l with
  | nil => rfl
  | cons x rest ih =>
    by_cases hq : q x = true
    · rw [List.filter_cons_of_pos hq, List.filter_cons_of_neg (by simp [hq])]
      simp only [List.length_cons]
      omega
    · have hq' : q x = false := Bool.eq_false_iff.mpr hq
      rw [List.filter_cons_of_neg (by simp [hq']),
        List.filter_cons_of_pos (by simp [hq'])]
      simp only [List.length_cons]
      omega

theorem applyDiversityFilter_eq_of_gt (scored : List Scored)
    (h : ¬ scored.length ≤ 10) :
    applyDiversityFilter scored =
      List.insertionSort (fun a b => b.2 ≤ a.2)
        (firstPass scored ++
          secondPassGo scored ((firstPass scored).map (fun p => p.1.fsq_id))
            (20 - (firstPass scored).length)) := by
  simp only [applyDiversityFilter]
  rw [if_neg h]

/-- C7 counterexample: eleven copies of one restaurant (a legal scored
list with repeated ids) produce an output with the same id five times. -/
theorem c7_counterexample :
    ¬ ((applyDiversityFilter dupScored).map (fun p => p.1.fsq_id)).Nodup := by
  decide

/-- C7 amended: the diversity filter returns at most 20 entries, never
more than the input, and distinct restaurant ids whenever the input ids
are distinct (inputs carrying duplicate ids can surface duplicates, since
neither pass deduplicates within the already-selected batch). -/
theorem c7_diversity_filter_bounds :
    ∀ scored : List Scored,
      (applyDiversityFilter scored).length ≤ 20 ∧
      (applyDiversityFilter scored).length ≤ scored.length ∧
      ((scored.map (fun p => p.1.fsq_id)).Nodup →
        ((applyDiversityFilter scored).map (fun p => p.1.fsq_id)).Nodup) := by
  intro scored
  by_cases hle : scored.length ≤ 10
  · rw [applyDiversityFilter, if_pos hle]
    exact ⟨by omega, Nat.le_refl _, fun h => h⟩
  · rw [applyDiversityFilter_eq_of_gt scored hle]
    have hd1sub : (firstPass scored).Sublist scored := by
      obtain ⟨tail, h1, h2⟩ := firstPassGo_decompose scored [] []
      rw [firstPass, h1, List.nil_append]
      exact h2
    have hd1len : (firstPass scored).length ≤ 15 :=
      firstPassGo_length_le scored [] [] (by norm_num)
    have hsplen : (secondPassGo scored
        ((firstPass scored).map (fun p => p.1.fsq_id))
        (20 - (firstPass scored).length)).length ≤
        20 - (firstPass scored).length :=
      secondPassGo_length_le _ _ _
    have hspsub : (secondPassGo scored
        ((firstPass scored).map (fun p => p.1.fsq_id))
        (20 - (firstPass scored).length)).Sublist scored :=
      secondPassGo_sublist _ _ _
    have hperm := List.perm_insertionSort (fun a b : Scored => b.2 ≤ a.2)
      (firstPass scored ++
        secondPassGo scored ((firstPass scored).map (fun p => p.1.fsq_id))
          (20 - (firstPass scored).length))
    have hlen := hperm.length_eq
    rw [List.length_append] at hlen
    refine ⟨?_, ?_, ?_⟩
    · omega
    · have hb1 : (firstPass scored).length ≤
          (scored.filter
            (fun q => q.1.fsq_id ∈
              (firstPass scored).map (fun p => p.1.fsq_id))).length := by
        apply length_le_filter_of_sublist_of_all _ hd1sub
        intro p hp
        exact decide_eq_true (List.mem_map_of_mem _ hp)
      have hb2 : (secondPassGo scored
            ((firstPass scored).map (fun p => p.1.fsq_id))
            (20 - (firstPass scored).length)).length ≤
          (scored.filter
            (fun q => !decide (q.1.fsq_id ∈
              (firstPass scored).map (fun p => p.1.fsq_id)))).length := by
        apply length_le_filter_of_sublist_of_all _ hspsub
        intro p hp
        have := secondPassGo_not_mem_ids scored _ _ p hp
        simp [this]
      have hsplit := filter_length_split scored
        (fun q => decide (q.1.fsq_id ∈
          (firstPass scored).map (fun p => p.1.fsq_id)))
      omega
    · intro hnodup
      rw [(hperm.map (fun p => p.1.fsq_id)).nodup_iff]
      rw [List.map_append]
      have hn1 : ((firstPass scored).map (fun p => p.1.fsq_id)).Nodup :=
        (hd1sub.map (fun p => p.1.fsq_id)).nodup hnodup
      have hn2 : ((secondPassGo scored
          ((firstPass scored).map (fun p => p.1.fsq_id))
          (20 - (firstPass scored).length)).map
            (fun p => p.1.fsq_id)).Nodup :=
        (hspsub.map (fun p => p.1.fsq_id)).nodup hnodup
      refine hn1.append hn2 ?_
      intro a ha1 ha2
      obtain ⟨p, hp, rfl⟩ := List.mem_map.mp ha2
      exact secondPassGo_not_mem_ids scored _ _ p hp ha1

/-- Witness for C7: eleven distinct-id restaurants keep distinct ids. -/
theorem c7_witness :
    (distinctScored.map (fun p => p.1.fsq_id)).Nodup ∧
    ((applyDiversityFilter distinctScored).map (fun p => p.1.fsq_id)).Nodup :=
  ⟨by decide, (c7_diversity_filter_bounds distinctScored).2.2 (by decide)⟩

end RecEngine
